import Mathlib

/-!
# Verification of the ingestion & graph-loading pipeline

A shallow embedding of the core of the `code-graph-platform` repository
(`app/graph_loader.py`, `app/async_ocr_processor.py`,
`app/libredwg_transformer.py`) in Lean 4, together with proofs settling the
frozen claims about the specification.

Python values flowing through the pipeline (JSON-derived dictionaries) are
modelled by the inductive type `Value`; Python dictionaries by ordered
association lists (`PyDict`); functions that can raise are embedded in
`Except String`.
-/

set_option maxHeartbeats 1000000

/-- A Python/JSON-like runtime value as it occurs in the pipeline: `None`,
booleans, integers, floats (modelled as rationals), strings, lists and
dictionaries (ordered association lists, mirroring Python's insertion-ordered
`dict`). -/
inductive Value where
  | none
  | bool (b : Bool)
  | int (i : Int)
  | float (q : ℚ)
  | str (s : String)
  | list (l : List Value)
  | dict (d : List (String × Value))

mutual

/-- Decidable equality for `Value` (mutual with lists and dictionaries). -/
def Value.decEq : (a b : Value) → Decidable (a = b)
  | .none, .none => isTrue rfl
  | .bool a, .bool b =>
    if h : a = b then isTrue (h ▸ rfl)
    else isFalse (fun he => h (by injection he))
  | .int a, .int b =>
    if h : a = b then isTrue (h ▸ rfl)
    else isFalse (fun he => h (by injection he))
  | .float a, .float b =>
    if h : a = b then isTrue (h ▸ rfl)
    else isFalse (fun he => h (by injection he))
  | .str a, .str b =>
    if h : a = b then isTrue (h ▸ rfl)
    else isFalse (fun he => h (by injection he))
  | .list a, .list b =>
    match Value.decEqList a b with
    | isTrue h => isTrue (h ▸ rfl)
    | isFalse h => isFalse (fun he => h (by injection he))
  | .dict a, .dict b =>
    match Value.decEqDict a b with
    | isTrue h => isTrue (h ▸ rfl)
    | isFalse h => isFalse (fun he => h (by injection he))
  | .none, .bool _ | .none, .int _ | .none, .float _ | .none, .str _
  | .none, .list _ | .none, .dict _
  | .bool _, .none | .bool _, .int _ | .bool _, .float _ | .bool _, .str _
  | .bool _, .list _ | .bool _, .dict _
  | .int _, .none | .int _, .bool _ | .int _, .float _ | .int _, .str _
  | .int _, .list _ | .int _, .dict _
  | .float _, .none | .float _, .bool _ | .float _, .int _ | .float _, .str _
  | .float _, .list _ | .float _, .dict _
  | .str _, .none | .str _, .bool _ | .str _, .int _ | .str _, .float _
  | .str _, .list _ | .str _, .dict _
  | .list _, .none | .list _, .bool _ | .list _, .int _ | .list _, .float _
  | .list _, .str _ | .list _, .dict _
  | .dict _, .none | .dict _, .bool _ | .dict _, .int _ | .dict _, .float _
  | .dict _, .str _ | .dict _, .list _ => isFalse (by intro h; exact Value.noConfusion h)

def Value.decEqList : (a b : List Value) → Decidable (a = b)
  | [], [] => isTrue rfl
  | a :: as, b :: bs =>
    match Value.decEq a b, Value.decEqList as bs with
    | isTrue h1, isTrue h2 => isTrue (h1 ▸ h2 ▸ rfl)
    | isFalse h1, _ => isFalse (fun he => h1 (by injection he))
    | _, isFalse h2 => isFalse (fun he => h2 (by injection he))
  | [], _ :: _ => isFalse (by intro h; exact List.noConfusion h)
  | _ :: _, [] => isFalse (by intro h; exact List.noConfusion h)

def Value.decEqDict : (a b : List (String × Value)) → Decidable (a = b)
  | [], [] => isTrue rfl
  | (k1, v1) :: as, (k2, v2) :: bs =>
    if h1 : k1 = k2 then
      match Value.decEq v1 v2, Value.decEqDict as bs with
      | isTrue h2, isTrue h3 => isTrue (h1 ▸ h2 ▸ h3 ▸ rfl)
      | isFalse h2, _ =>
        isFalse (fun he => h2 (congrArg (fun l => (l.headD (k1, v1)).2) he))
      | _, isFalse h3 => isFalse (fun he => h3 (by injection he))
    else isFalse (fun he => h1 (congrArg (fun l => (l.headD (k1, v1)).1) he))
  | [], _ :: _ => isFalse (by intro h; exact List.noConfusion h)
  | _ :: _, [] => isFalse (by intro h; exact List.noConfusion h)

end

instance : DecidableEq Value := Value.decEq

/-- A Python dictionary with string keys. -/
abbrev PyDict := List (String × Value)

/-- `d[k]` lookup returning the first binding for `k`, if any. -/
def dictFind? (d : PyDict) (k : String) : Option Value :=
  (d.find? (fun p => p.1 = k)).map (·.2)

/-- Python's `d.get(k, default)`. -/
def dictGetD (d : PyDict) (k : String) (default : Value) : Value :=
  (dictFind? d k).getD default

/-- Python's `d.get(k)` (missing key yields `None`). -/
def dictGet (d : PyDict) (k : String) : Value :=
  dictGetD d k Value.none

/-- Python truthiness of a value (`if value:`). -/
def Value.truthy : Value → Bool
  | .none => false
  | .bool b => b
  | .int i => i ≠ 0
  | .float q => q ≠ 0
  | .str s => s ≠ ""
  | .list l => !l.isEmpty
  | .dict d => !d.isEmpty

/-- Python's `len`, defined on sequences and mappings; `none` models the
`TypeError` raised on other values. -/
def pyLen : Value → Option Nat
  | .str s => some s.length
  | .list l => some l.length
  | .dict d => some d.length
  | _ => Option.none

/-- Decimal digit character for `d < 10` (`'0'`–`'9'`). -/
def digitChar (d : Nat) : Char :=
  match d with
  | 0 => '0' | 1 => '1' | 2 => '2' | 3 => '3' | 4 => '4'
  | 5 => '5' | 6 => '6' | 7 => '7' | 8 => '8' | _ => '9'

/-- Decimal digits, structurally recursive on a fuel bound (`fuel ≥ n`
suffices, since `n / 10 < n` for `n ≥ 10`). -/
def decDigitsAux : Nat → Nat → List Char
  | 0, n => [digitChar n]
  | fuel + 1, n =>
    if n < 10 then [digitChar n]
    else decDigitsAux fuel (n / 10) ++ [digitChar (n % 10)]

/-- Decimal digit list of a natural number (most significant first). -/
def decDigits (n : Nat) : List Char := decDigitsAux n n

/-- Decimal rendering of a natural number, as Python's `str(n)` /
f-string interpolation produces it. -/
def natStr (n : Nat) : String := ⟨decDigits n⟩

/-- Decimal rendering of an integer. -/
def intStr (i : Int) : String :=
  if i < 0 then "-" ++ natStr i.natAbs else natStr i.natAbs

/-- `_new_uid` from `graph_loader.py`: `f"{prefix}_{counter}"`. -/
def new_uid (pfx : String) (counter : Nat) : String :=
  pfx ++ "_" ++ natStr counter

/-- Parse a decimal digit list back to a number. -/
def parseDec (l : List Char) : Nat :=
  l.foldl (fun acc c => acc * 10 + (c.toNat - 48)) 0

/-!
## Python dictionary update/removal and string rendering
-/

/-- Python `d[k] = v`: replace the value in place if the key exists, else
append the binding. -/
def dictSet (d : PyDict) (k : String) (v : Value) : PyDict :=
  if (d.find? (fun p => p.1 = k)).isSome then
    d.map (fun p => if p.1 = k then (k, v) else p)
  else d ++ [(k, v)]

/-- Python `d.pop(k, None)`: remove the binding for `k` if present. -/
def dictPop (d : PyDict) (k : String) : PyDict :=
  d.filter (fun p => p.1 ≠ k)

/-- `.get(k, default)` on an arbitrary value: raises `AttributeError` unless
the receiver is a dictionary. -/
def valueGetD (v : Value) (k : String) (dflt : Value) : Except String Value :=
  match v with
  | .dict d => .ok (dictGetD d k dflt)
  | _ => .error "AttributeError: .get on non-dict"

/-- Decimal rendering of a rational, approximating Python's `str` on floats
(exact for integers; fractional part rendered to at most 17 digits). -/
def ratStr (q : ℚ) : String :=
  if q.den = 1 then intStr q.num ++ ".0"
  else
    let sign := if q < 0 then "-" else ""
    let n := q.num.natAbs
    let ipart := n / q.den
    let frac := ((n % q.den) * 10 ^ 17) / q.den
    sign ++ natStr ipart ++ "." ++ natStr frac

mutual

/-- Python's `str(value)` (for containers, `repr`-style rendering; string
escaping inside `repr` is not modelled). -/
def pyStr : Value → String
  | .none => "None"
  | .bool b => if b then "True" else "False"
  | .int i => intStr i
  | .float q => ratStr q
  | .str s => s
  | .list l => "[" ++ pyStrList l ++ "]"
  | .dict d => "\x7b" ++ pyStrDict d ++ "\x7d"

def pyStrList : List Value → String
  | [] => ""
  | [v] => pyRepr v
  | v :: rest => pyRepr v ++ ", " ++ pyStrList rest

def pyStrDict : List (String × Value) → String
  | [] => ""
  | [(k, v)] => "'" ++ k ++ "': " ++ pyRepr v
  | (k, v) :: rest => "'" ++ k ++ "': " ++ pyRepr v ++ ", " ++ pyStrDict rest

/-- Python's `repr(value)` as used when rendering containers. -/
def pyRepr : Value → String
  | .none => "None"
  | .bool b => if b then "True" else "False"
  | .int i => intStr i
  | .float q => ratStr q
  | .str s => "'" ++ s ++ "'"
  | .list l => "[" ++ pyStrList l ++ "]"
  | .dict d => "\x7b" ++ pyStrDict d ++ "\x7d"

end

/-!
## Graph projector (`transform_to_graph` entity loop, `graph_loader.py`)

The Python function reads the extracted-entities JSON file (trying `utf-8`,
`latin-1` and `cp1252`) and, for untransformed data, runs the
`LibreDWGTransformer` first; the embedding takes the resulting decoded entity
list (and the file stem used for the `Building` name) directly and models the
entity loop, which is what the claims are about.
-/

/-- A graph payload: `{"nodes": [...], "relationships": [...]}`. -/
structure GraphPayload where
  nodes : List PyDict
  relationships : List PyDict
  deriving DecidableEq

/-- Mutable state of the `transform_to_graph` entity loop. -/
structure TGState where
  nodes : List PyDict
  rels : List PyDict
  space_c : Nat
  wall_c : Nat
  feature_c : Nat
  annot_c : Nat
  deriving DecidableEq

/-- The `Building` node appended before the loop. -/
def buildingNode (stem : String) : PyDict :=
  [("label", .str "Building"), ("uid", .str "building_1"),
   ("name", .str ("DWG Building (" ++ stem ++ ")"))]

/-- The `Floor` node appended before the loop. -/
def floorNode : PyDict :=
  [("label", .str "Floor"), ("uid", .str "floor_1"),
   ("name", .str "Floor 1"), ("level", .int 1)]

/-- The `Building-[:HAS_FLOOR]->Floor` relationship appended before the loop. -/
def hasFloorRel : PyDict :=
  [("start_label", .str "Building"), ("start_uid", .str "building_1"),
   ("type", .str "HAS_FLOOR"),
   ("end_label", .str "Floor"), ("end_uid", .str "floor_1")]

/-- A `Floor/Building -[type]-> end` relationship dictionary. -/
def mkRel (start_label start_uid ty end_label end_uid : String) : PyDict :=
  [("start_label", .str start_label), ("start_uid", .str start_uid),
   ("type", .str ty),
   ("end_label", .str end_label), ("end_uid", .str end_uid)]

/-- The `Metadata` node of the `SCALE_INFO` branch. -/
def scaleMetaNode (scale_node_uid : String)
    (dimscale ltscale cmlscale celtscale : Value) : PyDict :=
  [("label", .str "Metadata"), ("uid", .str scale_node_uid),
   ("type", .str "SCALE_INFO"),
   ("dimscale", dimscale), ("ltscale", ltscale),
   ("cmlscale", cmlscale), ("celtscale", celtscale)]

/-- The `Space` node of the closed-`LWPOLYLINE` branch. -/
def spaceNode (space_uid : String) (e : PyDict) (pc : Nat) : PyDict :=
  [("label", .str "Space"), ("uid", .str space_uid),
   ("raw_points", dictGet e "points"),
   ("point_count", .int pc),
   ("layer", .str (pyStr (dictGetD e "layer" (.str "0"))))]

/-- The `WallSegment` node of the `LINE` branch. -/
def wallNode (wall_uid : String) (e : PyDict) : PyDict :=
  [("label", .str "WallSegment"), ("uid", .str wall_uid),
   ("start", dictGet e "start"), ("end", dictGet e "end"),
   ("layer", .str (pyStr (dictGetD e "layer" (.str "0"))))]

/-- The `Feature` node of the `CIRCLE`/`ARC` branch (`feature_data` plus the
type-specific `update`). -/
def featureNode (feature_uid : String) (e : PyDict) (etype : Value) : PyDict :=
  [("label", .str "Feature"), ("uid", .str feature_uid),
   ("type", etype),
   ("layer", .str (pyStr (dictGetD e "layer" (.str "0"))))] ++
  (if etype = .str "CIRCLE" then
    [("center", dictGet e "center"),
     ("radius", dictGetD e "radius" (.int 0))]
  else
    [("center", dictGet e "center"),
     ("radius", dictGetD e "radius" (.int 0)),
     ("start_angle", dictGetD e "start_angle" (.int 0)),
     ("end_angle", dictGetD e "end_angle" (.int 0))])

/-- The `Annotation` node of the text branch: base properties, the
`text_color` extraction, the insertion-point flattening (which removes the
`insert` record), and the type-specific `tag`/`prompt`/`parent_block`
properties. -/
def annotationNode (annot_uid : String) (e : PyDict) (etype : Value) : PyDict :=
  let node0 : PyDict :=
    [("label", .str "Annotation"), ("uid", .str annot_uid),
     ("text", dictGetD e "text_value" (dictGetD e "text" (.str ""))),
     ("type", etype),
     ("insert", dictGet e "insert"),
     ("height", dictGetD e "height" (.float 1)),
     ("layer", .str (pyStr (dictGetD e "layer" (.str "0"))))]
  let node1 :=
    match dictGet e "text_color" with
    | .dict tc => dictSet node0 "text_color" (dictGetD tc "rgb" (.str "000000"))
    | _ =>
      if (dictFind? e "text_color").isSome then
        dictSet node0 "text_color" (.str (pyStr (dictGet e "text_color")))
      else node0
  let insert_pt := dictGetD e "insert" (dictGetD e "insertion_pt" (.dict []))
  let node2 :=
    match insert_pt with
    | .dict ip =>
      dictPop
        (dictSet
          (dictSet
            (dictSet node1 "insert_x" (dictGetD ip "x" (.int 0)))
            "insert_y" (dictGetD ip "y" (.int 0)))
          "insert_z" (dictGetD ip "z" (.int 0)))
        "insert"
    | _ => node1
  if etype = .str "ATTRIB" then
    dictSet (dictSet node2 "tag" (dictGetD e "tag" (.str "")))
      "parent_block" (dictGetD e "parent_block" (.str ""))
  else if etype = .str "ATTDEF" then
    dictSet (dictSet node2 "tag" (dictGetD e "tag" (.str "")))
      "prompt" (dictGetD e "prompt" (.str ""))
  else if (etype = .str "TEXT" ∨ etype = .str "MTEXT") ∧
      (dictGet e "parent_block").truthy then
    dictSet node2 "parent_block" (dictGetD e "parent_block" (.str ""))
  else node2

/-- The `BlockReference` node of the `INSERT` branch. -/
def blockRefNode (feature_uid : String) (e : PyDict) : PyDict :=
  [("label", .str "BlockReference"), ("uid", .str feature_uid),
   ("block_name", dictGetD e "block_name" (.str "")),
   ("insert", dictGet e "insert"),
   ("rotation", dictGetD e "rotation" (.int 0)),
   ("xscale", dictGetD e "xscale" (.float 1)),
   ("yscale", dictGetD e "yscale" (.float 1)),
   ("zscale", dictGetD e "zscale" (.float 1)),
   ("layer", .str (pyStr (dictGetD e "layer" (.str "0"))))]

/-- One iteration of the `transform_to_graph` entity loop (whole-file path). -/
def tgStep (building_uid floor_uid : String) (st : TGState) (e : PyDict) :
    Except String TGState := do
  let etype := dictGet e "type"
  if etype = .str "SCALE_INFO" then
    let scale_node_uid := new_uid "metadata" 1
    let scale_data := dictGetD e "scales" (.dict [])
    let dimscale ← valueGetD scale_data "DIMSCALE" (.float 1)
    let ltscale ← valueGetD scale_data "LTSCALE" (.float 1)
    let cmlscale ← valueGetD scale_data "CMLSCALE" (.float 1)
    let celtscale ← valueGetD scale_data "CELTSCALE" (.float 1)
    return { st with
      nodes := st.nodes ++
        [scaleMetaNode scale_node_uid dimscale ltscale cmlscale celtscale],
      rels := st.rels ++
        [mkRel "Building" building_uid "HAS_METADATA" "Metadata" scale_node_uid] }
  else if etype = .str "LWPOLYLINE" ∧ (dictGet e "is_closed").truthy then
    let space_uid := new_uid "space" st.space_c
    let some pc := pyLen (dictGetD e "points" (.list []))
      | .error "TypeError: len"
    return { st with
      nodes := st.nodes ++ [spaceNode space_uid e pc],
      rels := st.rels ++ [mkRel "Floor" floor_uid "HAS_SPACE" "Space" space_uid],
      space_c := st.space_c + 1 }
  else if etype = .str "LINE" then
    let wall_uid := new_uid "wall" st.wall_c
    return { st with
      nodes := st.nodes ++ [wallNode wall_uid e],
      rels := st.rels ++ [mkRel "Floor" floor_uid "HAS_WALL" "WallSegment" wall_uid],
      wall_c := st.wall_c + 1 }
  else if etype = .str "CIRCLE" ∨ etype = .str "ARC" then
    let feature_uid := new_uid "feature" st.feature_c
    return { st with
      nodes := st.nodes ++ [featureNode feature_uid e etype],
      rels := st.rels ++ [mkRel "Floor" floor_uid "HAS_FEATURE" "Feature" feature_uid],
      feature_c := st.feature_c + 1 }
  else if etype = .str "TEXT" ∨ etype = .str "MTEXT" ∨ etype = .str "ATTRIB" ∨
      etype = .str "ATTDEF" ∨ etype = .str "MULTILEADER" then
    let annot_uid := new_uid "annotation" st.annot_c
    return { st with
      nodes := st.nodes ++ [annotationNode annot_uid e etype],
      rels := st.rels ++
        [mkRel "Floor" floor_uid "HAS_ANNOTATION" "Annotation" annot_uid],
      annot_c := st.annot_c + 1 }
  else if etype = .str "INSERT" then
    let feature_uid := new_uid "feature" st.feature_c
    return { st with
      nodes := st.nodes ++ [blockRefNode feature_uid e],
      rels := st.rels ++
        [mkRel "Floor" floor_uid "HAS_BLOCK_REFERENCE" "BlockReference" feature_uid],
      feature_c := st.feature_c + 1 }
  else
    return st

/-- The `transform_to_graph` entity loop run from a given state. -/
def tgRun (building_uid floor_uid : String) (st : TGState) :
    List PyDict → Except String TGState
  | [] => .ok st
  | e :: rest => do
    let st' ← tgStep building_uid floor_uid st e
    tgRun building_uid floor_uid st' rest

/-- `transform_to_graph` (whole-file path) on a decoded entity list.
Builds `Building`/`Floor` and the `HAS_FLOOR` edge, then runs the entity loop
with all uid counters starting at 1. -/
def transform_to_graph (stem : String) (entities : List PyDict) :
    Except String GraphPayload := do
  let st0 : TGState :=
    { nodes := [buildingNode stem, floorNode],
      rels := [hasFloorRel],
      space_c := 1, wall_c := 1, feature_c := 1, annot_c := 1 }
  let st ← tgRun "building_1" "floor_1" st0 entities
  return { nodes := st.nodes, relationships := st.rels }

/-!
## Chunked projector (`transform_chunk_to_graph`) and streaming wrapper

`transform_chunk_to_graph` re-initialises all uid counters from
`int(time.time() * 1000)` on every call ("Use timestamp to ensure unique IDs
across chunks"); the wall clock observed at the start of a chunk is an
explicit `timestamp` argument of the embedding.
-/

/-- The fixed numeric DWG type-code table of `transform_chunk_to_graph`. -/
def dwgTypeMap (n : Int) : String :=
  if n = 1 then "TEXT" else if n = 2 then "ATTRIB" else if n = 3 then "ATTDEF"
  else if n = 4 then "BLOCK" else if n = 7 then "INSERT"
  else if n = 11 then "VERTEX_2D" else if n = 19 then "POLYLINE_2D"
  else if n = 20 then "POLYLINE_3D" else if n = 21 then "ARC"
  else if n = 22 then "CIRCLE" else if n = 23 then "LINE"
  else if n = 44 then "MTEXT" else if n = 77 then "LWPOLYLINE"
  else "TYPE_" ++ intStr n

/-- `entity.get("type") or entity.get("object", "").upper()`, then the numeric
DWG-code translation. -/
def chunkEtype (e : PyDict) : Except String Value := do
  let t := dictGet e "type"
  let et ←
    if t.truthy then pure t
    else
      match dictGetD e "object" (.str "") with
      | .str s => pure (Value.str s.toUpper)
      | _ => .error "AttributeError: .upper on non-str"
  match et with
  | .int n => pure (.str (dwgTypeMap n))
  | v => pure v

/-- One iteration of the `transform_chunk_to_graph` entity loop. -/
def tcStep (timestamp : Nat) (building_uid floor_uid : String) (st : TGState)
    (e : PyDict) : Except String TGState := do
  let etype ← chunkEtype e
  if etype = .str "SCALE_INFO" then
    let scale_node_uid := "metadata_" ++ natStr timestamp ++ "_" ++ natStr st.nodes.length
    let scale_data := dictGetD e "scales" (.dict [])
    let dimscale ← valueGetD scale_data "DIMSCALE" (.float 1)
    let ltscale ← valueGetD scale_data "LTSCALE" (.float 1)
    let cmlscale ← valueGetD scale_data "CMLSCALE" (.float 1)
    let celtscale ← valueGetD scale_data "CELTSCALE" (.float 1)
    let node : PyDict :=
      [("label", .str "Metadata"), ("uid", .str scale_node_uid),
       ("type", .str "SCALE_INFO"),
       ("dimscale", dimscale), ("ltscale", ltscale),
       ("cmlscale", cmlscale), ("celtscale", celtscale)]
    return { st with
      nodes := st.nodes ++ [node],
      rels := st.rels ++
        [mkRel "Building" building_uid "HAS_METADATA" "Metadata" scale_node_uid] }
  else if etype = .str "LWPOLYLINE" ∧ (dictGet e "is_closed").truthy then
    let space_uid := new_uid "space" st.space_c
    let some pc := pyLen (dictGetD e "points" (.list []))
      | .error "TypeError: len"
    let node : PyDict :=
      [("label", .str "Space"), ("uid", .str space_uid),
       ("raw_points", dictGet e "points"),
       ("point_count", .int pc),
       ("layer", .str (pyStr (dictGetD e "layer" (.str "0"))))]
    return { st with
      nodes := st.nodes ++ [node],
      rels := st.rels ++ [mkRel "Floor" floor_uid "HAS_SPACE" "Space" space_uid],
      space_c := st.space_c + 1 }
  else if etype = .str "LINE" then
    let wall_uid := new_uid "wall" st.wall_c
    let node : PyDict :=
      [("label", .str "WallSegment"), ("uid", .str wall_uid),
       ("start", dictGet e "start"), ("end", dictGet e "end"),
       ("layer", .str (pyStr (dictGetD e "layer" (.str "0"))))]
    return { st with
      nodes := st.nodes ++ [node],
      rels := st.rels ++ [mkRel "Floor" floor_uid "HAS_WALL" "WallSegment" wall_uid],
      wall_c := st.wall_c + 1 }
  else if etype = .str "CIRCLE" ∨ etype = .str "ARC" then
    let feature_uid := new_uid "feature" st.feature_c
    let base : PyDict :=
      [("label", .str "Feature"), ("uid", .str feature_uid),
       ("type", etype),
       ("layer", .str (pyStr (dictGetD e "layer" (.str "0"))))]
    let node : PyDict :=
      if etype = .str "CIRCLE" then
        base ++ [("center", dictGet e "center"),
                 ("radius", dictGetD e "radius" (.int 0))]
      else
        base ++ [("center", dictGet e "center"),
                 ("radius", dictGetD e "radius" (.int 0)),
                 ("start_angle", dictGetD e "start_angle" (.int 0)),
                 ("end_angle", dictGetD e "end_angle" (.int 0))]
    return { st with
      nodes := st.nodes ++ [node],
      rels := st.rels ++ [mkRel "Floor" floor_uid "HAS_FEATURE" "Feature" feature_uid],
      feature_c := st.feature_c + 1 }
  else if etype = .str "TEXT" ∨ etype = .str "MTEXT" ∨ etype = .str "ATTRIB" ∨
      etype = .str "ATTDEF" ∨ etype = .str "MULTILEADER" then
    let annot_uid := new_uid "annotation" st.annot_c
    let node0 : PyDict :=
      [("label", .str "Annotation"), ("uid", .str annot_uid),
       ("text", dictGetD e "text" (dictGetD e "text_value" (.str ""))),
       ("type", etype),
       ("insert", dictGetD e "insert"
          (dictGetD e "ins_pt" (dictGetD e "insertion_pt" (.dict [])))),
       ("height", dictGetD e "height" (.float 1)),
       ("layer", .str (pyStr (dictGetD e "layer" (.str "0"))))]
    let node1 :=
      if etype = .str "ATTRIB" then
        dictSet (dictSet node0 "tag" (dictGetD e "tag" (.str "")))
          "parent_block" (dictGetD e "parent_block" (.str ""))
      else if etype = .str "ATTDEF" then
        dictSet (dictSet node0 "tag" (dictGetD e "tag" (.str "")))
          "prompt" (dictGetD e "prompt" (.str ""))
      else if (etype = .str "TEXT" ∨ etype = .str "MTEXT") ∧
          (dictGet e "parent_block").truthy then
        dictSet node0 "parent_block" (dictGetD e "parent_block" (.str ""))
      else node0
    return { st with
      nodes := st.nodes ++ [node1],
      rels := st.rels ++
        [mkRel "Floor" floor_uid "HAS_ANNOTATION" "Annotation" annot_uid],
      annot_c := st.annot_c + 1 }
  else if etype = .str "INSERT" then
    let feature_uid := new_uid "feature" st.feature_c
    let node : PyDict :=
      [("label", .str "BlockReference"), ("uid", .str feature_uid),
       ("block_name", dictGetD e "block_name" (.str "")),
       ("insert", dictGet e "insert"),
       ("rotation", dictGetD e "rotation" (.int 0)),
       ("xscale", dictGetD e "xscale" (.float 1)),
       ("yscale", dictGetD e "yscale" (.float 1)),
       ("zscale", dictGetD e "zscale" (.float 1)),
       ("layer", .str (pyStr (dictGetD e "layer" (.str "0"))))]
    return { st with
      nodes := st.nodes ++ [node],
      rels := st.rels ++
        [mkRel "Floor" floor_uid "HAS_BLOCK_REFERENCE" "BlockReference" feature_uid],
      feature_c := st.feature_c + 1 }
  else
    return st

/-- The `transform_chunk_to_graph` entity loop run from a given state. -/
def tcRun (timestamp : Nat) (building_uid floor_uid : String) (st : TGState) :
    List PyDict → Except String TGState
  | [] => .ok st
  | e :: rest => do
    let st' ← tcStep timestamp building_uid floor_uid st e
    tcRun timestamp building_uid floor_uid st' rest

/-- `transform_chunk_to_graph`: all four uid counters are re-initialised from
the wall-clock `timestamp` captured at the start of the call. -/
def transform_chunk_to_graph (timestamp : Nat) (entities_chunk : List PyDict)
    (building_uid : String := "building_1") (floor_uid : String := "floor_1") :
    Except String GraphPayload := do
  let st0 : TGState :=
    { nodes := [], rels := [],
      space_c := timestamp, wall_c := timestamp,
      feature_c := timestamp, annot_c := timestamp }
  let st ← tcRun timestamp building_uid floor_uid st0 entities_chunk
  return { nodes := st.nodes, relationships := st.rels }

/-- The chunks produced by `json_chunks_generator`: consecutive runs of
`chunk_size` entities (a chunk is emitted as soon as it reaches `chunk_size`,
so sizes `≤ 1` behave like 1). -/
def chunksOfAux (c : Nat) : Nat → List PyDict → List (List PyDict)
  | 0, _ => []
  | _, [] => []
  | fuel + 1, x :: xs =>
    (x :: xs).take (max c 1) :: chunksOfAux c fuel ((x :: xs).drop (max c 1))

/-- See `json_chunks_generator`: structurally recursive on a fuel bound
(the list length suffices, each step consuming at least one entity). -/
def chunksOf (c : Nat) (l : List PyDict) : List (List PyDict) :=
  chunksOfAux c l.length l

/-- The chunk loop of `transform_to_graph_streaming`: chunk `i` is transformed
with the wall clock `timestamps i`, and its nodes/relationships are appended. -/
def streamChunks (timestamps : Nat → Nat) (acc : GraphPayload) (i : Nat) :
    List (List PyDict) → Except String GraphPayload
  | [] => .ok acc
  | c :: rest => do
    let g ← transform_chunk_to_graph (timestamps i) c "building_1" "floor_1"
    streamChunks timestamps
      { nodes := acc.nodes ++ g.nodes,
        relationships := acc.relationships ++ g.relationships }
      (i + 1) rest

/-- `transform_to_graph_streaming`: `Building`/`Floor`/`HAS_FLOOR` first, then
the chunk loop — which stops after 10 chunks
("TESTING MODE: Stopping after 10 chunks" in the source). -/
def transform_to_graph_streaming (stem : String) (timestamps : Nat → Nat)
    (chunk_size : Nat) (entities : List PyDict) : Except String GraphPayload :=
  streamChunks timestamps
    { nodes := [buildingNode stem, floorNode], relationships := [hasFloorRel] }
    0 ((chunksOf chunk_size entities).take 10)

/-!
## JSON serialization, rounding, and the OCR enrichment payload
-/

mutual

/-- `json.dumps` (string escaping is not modelled; keys and values here are
plain text). -/
def jsonDumps : Value → String
  | .none => "null"
  | .bool b => if b then "true" else "false"
  | .int i => intStr i
  | .float q => ratStr q
  | .str s => "\"" ++ s ++ "\""
  | .list l => "[" ++ jsonDumpsList l ++ "]"
  | .dict d => "\x7b" ++ jsonDumpsDict d ++ "\x7d"

def jsonDumpsList : List Value → String
  | [] => ""
  | [v] => jsonDumps v
  | v :: rest => jsonDumps v ++ ", " ++ jsonDumpsList rest

def jsonDumpsDict : List (String × Value) → String
  | [] => ""
  | [(k, v)] => "\"" ++ k ++ "\": " ++ jsonDumps v
  | (k, v) :: rest => "\"" ++ k ++ "\": " ++ jsonDumps v ++ ", " ++ jsonDumpsDict rest

end

/-- Round to the nearest integer, ties to even (Python/IEEE rounding). -/
def roundHalfEven (r : ℚ) : ℤ :=
  let f := ⌊r⌋
  let frac := r - f
  if frac < 1 / 2 then f
  else if frac > 1 / 2 then f + 1
  else if f % 2 = 0 then f else f + 1

/-- Python's `round(x, nd)`. -/
def pyRound (q : ℚ) (nd : Nat) : ℚ :=
  (roundHalfEven (q * 10 ^ nd) : ℚ) / 10 ^ nd

/-- Numeric coercion used by Python's `sum` (booleans count as ints; anything
else raises `TypeError`). -/
def toNum : Value → Except String ℚ
  | .int i => .ok (i : ℚ)
  | .float q => .ok q
  | .bool b => .ok (if b then 1 else 0)
  | _ => .error "TypeError: unsupported operand"

/-- Iterating a Python value in a `for` loop; only lists are modelled. -/
def asList (v : Value) : Except String (List Value) :=
  match v with
  | .list l => .ok l
  | _ => .error "TypeError: not iterable"

/-- Effectful map over a list in the `Except` monad (the shape of every
`for`-loop body below that can raise). -/
def exceptMapList {α β : Type} (g : α → Except String β) :
    List α → Except String (List β)
  | [] => .ok []
  | a :: as => do
    let b ← g a
    let bs ← exceptMapList g as
    return b :: bs

/-- Interpret each element of a list as a dictionary (`.get` is called on
every element in the source loops). -/
def asDicts (l : List Value) : Except String (List PyDict) :=
  exceptMapList
    (fun v =>
      match v with
      | .dict d => .ok d
      | _ => .error "AttributeError: .get on non-dict") l

/-- Auxiliary for `dedupKeys`, carrying the set of keys already seen. -/
def dedupAux (seen : List Value) : List Value → List Value
  | [] => []
  | v :: rest =>
    if seen.contains v then dedupAux seen rest
    else v :: dedupAux (v :: seen) rest

/-- Keys of an insertion-ordered dictionary built by indexing a list of
records by a field: first-occurrence order, as Python's `dict` preserves. -/
def dedupKeys (l : List Value) : List Value := dedupAux [] l

/-- The `"ocr_nodes"` items of the enrichment payload, as dictionaries. -/
def ocrItems (ocrData : PyDict) : Except String (List PyDict) := do
  let l ← asList (dictGetD ocrData "ocr_nodes" (.list []))
  asDicts l

/-- The region id of one OCR item (`ocr_node_data.get("region_id", "")`). -/
def regionIdOf (item : PyDict) : Value := dictGetD item "region_id" (.str "")

/-- One `OCRText` node (first loop body of `create_ocr_nodes`). -/
def ocrTextNode (i : Nat) (item : PyDict) : PyDict :=
  [("label", Value.str "OCRText"), ("uid", Value.str (new_uid "ocr_text" (i + 1))),
   ("text", dictGetD item "text" (.str "")),
   ("confidence", dictGetD item "confidence" (.float 0)),
   ("region_id", regionIdOf item),
   ("region_type", dictGetD item "region_type" (.str "")),
   ("processing_engine", dictGetD item "processing_engine" (.str "")),
   ("extracted_info", Value.str (jsonDumps (dictGetD item "extracted_info" (.dict []))))]

/-- One `OCRRegion` node (second loop body of `create_ocr_nodes`): the group
of items sharing the region id, its size, and the rounded average
confidence; raises if a grouped confidence is not numeric. -/
def ocrRegionNode (items : List PyDict) (p : Nat × Value) : Except String PyDict := do
  let group := items.filter (fun item => regionIdOf item = p.2)
  let confidences ← exceptMapList
    (fun item => toNum (dictGetD item "confidence" (.float 0))) group
  let avg := if confidences.length = 0 then 0 else confidences.sum / confidences.length
  let region_type := ((group.head?.map (fun item => dictGetD item "region_type" (.str ""))).getD (.str ""))
  pure ([("label", Value.str "OCRRegion"),
         ("uid", Value.str (new_uid "ocr_region" (p.1 + 1))),
         ("region_id", p.2),
         ("region_type", region_type),
         ("text_count", Value.int group.length),
         ("average_confidence", Value.float (pyRound avg 3))] : PyDict)

/-- `create_ocr_nodes` from `graph_loader.py`: one `OCRText` node per item,
then one `OCRRegion` node per distinct `region_id` (first-occurrence order),
carrying the count and the rounded average confidence. -/
def create_ocr_nodes (ocrData : PyDict) : Except String (List PyDict) := do
  let items ← ocrItems ocrData
  let regionNodes ← exceptMapList (ocrRegionNode items)
    (dedupKeys (items.map regionIdOf)).enum
  return items.enum.map (fun p => ocrTextNode p.1 p.2) ++ regionNodes

/-- Map a region id to its `OCRRegion` uid (the `region_to_uid` dict of
`create_ocr_relationships`). -/
def regionUidMap (keys : List Value) (rid : Value) : Option String :=
  (keys.enum.find? (fun p => p.2 = rid)).map (fun p => new_uid "ocr_region" (p.1 + 1))

/-- One `OCRRegion-[:CONTAINS_TEXT]->OCRText` relationship, created when the
item's region id maps to a truthy uid. -/
def ocrContainsRel (keys : List Value) (p : Nat × PyDict) : Option PyDict :=
  match regionUidMap keys (regionIdOf p.2) with
  | some ruid =>
    if ruid ≠ "" then
      some (mkRel "OCRRegion" ruid "CONTAINS_TEXT" "OCRText" (new_uid "ocr_text" (p.1 + 1)))
    else Option.none
  | Option.none => Option.none

/-- `create_ocr_relationships` from `graph_loader.py`:
`Floor-[:HAS_OCR_REGION]->OCRRegion` per distinct region,
`OCRRegion-[:CONTAINS_TEXT]->OCRText` per item, then `VALIDATES` and
`DISCOVERS` edges from `OCRText` to `Floor`. -/
def create_ocr_relationships (ocrData : PyDict) (floor_uid : String := "floor_1") :
    Except String (List PyDict) := do
  let items ← ocrItems ocrData
  let keys := dedupKeys (items.map regionIdOf)
  let floorRels := keys.enum.map fun p =>
    mkRel "Floor" floor_uid "HAS_OCR_REGION" "OCRRegion" (new_uid "ocr_region" (p.1 + 1))
  let containsRels := items.enum.filterMap (ocrContainsRel keys)
  let validations ← asList (dictGetD ocrData "validation_relationships" (.list []))
  let validationDicts ← asDicts validations
  let validationRels := validationDicts.enum.map fun (i, v) =>
    mkRel "OCRText" (new_uid "ocr_text" (i + 1)) "VALIDATES" "Floor" floor_uid ++
      [("properties", Value.dict
        [("confidence", dictGetD v "confidence" (.float 0)),
         ("correlation_type", dictGetD v "correlation_type" (.str "")),
         ("cad_text", dictGetD v "cad_text" (.str ""))])]
  let discoveries ← asList (dictGetD ocrData "discovery_relationships" (.list []))
  let discoveryDicts ← asDicts discoveries
  let discoveryRels := discoveryDicts.filterMap fun d =>
    match (items.enum.find? fun (_, item) =>
        dictGet item "text" = dictGet d "ocr_text") with
    | some (j, _) =>
      some (mkRel "OCRText" (new_uid "ocr_text" (j + 1)) "DISCOVERS" "Floor" floor_uid ++
        [("properties", Value.dict
          [("confidence", dictGetD d "confidence" (.float 0)),
           ("region_type", dictGetD d "region_type" (.str "")),
           ("context", Value.str (jsonDumps (dictGetD d "context" (.dict []))))])])
    | Option.none => Option.none
  return floorRels ++ containsRels ++ validationRels ++ discoveryRels

/-- `enhance_graph_with_ocr`: append OCR nodes and relationships to the base
graph payload. -/
def enhance_graph_with_ocr (base : GraphPayload) (ocrData : PyDict) :
    Except String GraphPayload := do
  let ocr_nodes ← create_ocr_nodes ocrData
  let ocr_rels ← create_ocr_relationships ocrData
  return { nodes := base.nodes ++ ocr_nodes,
           relationships := base.relationships ++ ocr_rels }

/-!
## Neo4j-safety pipeline
(`LibreDWGTransformer._transform_value` / `_flatten_complex_dict` /
`_is_complex_nested_dict`, `graph_loader._sanitize_data_types`,
`_is_neo4j_safe`, `_force_neo4j_safe_value` and the per-node preparation of
`_merge_nodes_batch`.)
-/

/-- The runtime type tag of a value (Python's `type(v)`). -/
inductive VTag where
  | tnone | tbool | tint | tfloat | tstr | tlist | tdict
  deriving DecidableEq

/-- `type(v)`. -/
def vtag : Value → VTag
  | .none => .tnone
  | .bool _ => .tbool
  | .int _ => .tint
  | .float _ => .tfloat
  | .str _ => .tstr
  | .list _ => .tlist
  | .dict _ => .tdict

/-- Python's `isinstance(v, t)`; `bool` is a subclass of `int`. -/
def isinst (v : Value) (t : VTag) : Bool :=
  match t with
  | .tint => vtag v = VTag.tint ∨ vtag v = VTag.tbool
  | _ => vtag v = t

/-- The scalar types Neo4j accepts (`safe_types` in `_is_neo4j_safe`). -/
def safeTag (t : VTag) : Bool :=
  t = VTag.tstr ∨ t = VTag.tint ∨ t = VTag.tfloat ∨ t = VTag.tbool ∨ t = VTag.tnone

/-- `_is_neo4j_safe`: scalars, or homogeneous arrays of the first element's
scalar type; dictionaries are unsafe. -/
def is_neo4j_safe (v : Value) : Bool :=
  if safeTag (vtag v) then true
  else
    match v with
    | .list [] => true
    | .list (h :: t) =>
      safeTag (vtag h) && (h :: t).all (fun item => isinst item (vtag h))
    | _ => false

/-- `_force_neo4j_safe_value`: pass safe values through, stringify the rest. -/
def force_neo4j_safe (v : Value) : Value :=
  if is_neo4j_safe v then v else .str (pyStr v)

/-- Is the value a dictionary? (`isinstance(item, dict)`). -/
def isDictV : Value → Bool
  | .dict _ => true
  | _ => false

/-- One "problematic key" test of `_is_complex_nested_dict`. -/
def complexKeyCheck (d : PyDict) (k : String) : Bool :=
  match dictFind? d k with
  | some (.dict nd) => !nd.isEmpty
  | some (.list nl) => !nl.isEmpty && nl.any isDictV
  | _ => false

/-- `LibreDWGTransformer._is_complex_nested_dict`. -/
def is_complex_nested_dict (d : PyDict) : Bool :=
  if (["items", "color", "rgb", "index"].any (complexKeyCheck d)) then true
  else if (dictFind? d "label").isSome && (dictFind? d "uid").isSome then false
  else d.any fun p =>
    match p.2 with
    | .dict nd => nd.length > 1
    | .list nl => nl.any isDictV
    | _ => false

/-- Key sanitizer: `.replace('.', '_').replace(' ', '_')`. -/
def safeKey (s : String) : String :=
  ⟨s.data.map (fun c => if c = '.' ∨ c = ' ' then '_' else c)⟩

/-- `True` iff every element of the list is a dictionary
(`all(isinstance(item, dict) for item in nested_value)`). -/
def allDict (l : List Value) : Bool := l.all isDictV

mutual

/-- `LibreDWGTransformer._transform_value` under the default configuration:
`None` passes through, complex dictionaries are flattened, other dictionaries
and lists recurse, floats are rounded to 6 digits, ints/bools/strings pass
through (`_normalize_string` is the identity on `str`). -/
def pyTransformValue : Value → Value
  | .none => .none
  | .dict d =>
    if is_complex_nested_dict d then
      .dict ((flattenPairs d).foldl (fun acc p => dictSet acc p.1 p.2) [])
    else .dict (transformDictEntries d)
  | .list l => .list (transformValueList l)
  | .int i => .int i
  | .float q => .float (pyRound q 6)
  | .bool b => .bool b
  | .str s => .str s
  termination_by structural v => v

def transformValueList : List Value → List Value
  | [] => []
  | v :: rest => pyTransformValue v :: transformValueList rest
  termination_by structural l => l

def transformDictEntries : PyDict → PyDict
  | [] => []
  | (k, v) :: rest => (k, pyTransformValue v) :: transformDictEntries rest
  termination_by structural l => l

def flattenPairs : PyDict → List (String × Value)
  | [] => []
  | (k, v) :: rest => entryPairs k v ++ flattenPairs rest
  termination_by structural l => l

/-- The assignments generated for a single `key: nested_value` entry of
`_flatten_complex_dict`. -/
def entryPairs (k : String) : Value → List (String × Value)
  | .dict nd => prefixedPairs k nd
  | .list [] => [(k, .list [])]
  | .list (h :: t) =>
    if allDict (h :: t) then listOfDictsPairs k 0 (h :: t)
    else [(k, .list (transformValueList (h :: t)))]
  | .none => [(k, .none)]
  | .bool b => [(k, .bool b)]
  | .int i => [(k, .int i)]
  | .float q => [(k, .float (pyRound q 6))]
  | .str s => [(k, .str s)]
  termination_by structural v => v

/-- `color: {index: 7} → color_index: 7` — one prefixed level. -/
def prefixedPairs (pfx : String) : PyDict → List (String × Value)
  | [] => []
  | (nk, nv) :: rest =>
    (safeKey (pfx ++ "_" ++ nk), pyTransformValue nv) :: prefixedPairs pfx rest
  termination_by structural l => l

/-- `items: [{...}, {...}] → items_0_..., items_1_...` over a list of
dictionaries. -/
def listOfDictsPairs (k : String) : Nat → List Value → List (String × Value)
  | _, [] => []
  | i, item :: rest =>
    (match item with
     | .dict idd =>
       if is_complex_nested_dict idd then
         ((flattenPairs idd).foldl (fun acc p => dictSet acc p.1 p.2) []).map
           (fun p => (safeKey (k ++ "_" ++ natStr i ++ "_" ++ p.1), p.2))
       else prefixedPairs (k ++ "_" ++ natStr i) idd
     | _ => []) ++ listOfDictsPairs k (i + 1) rest
  termination_by structural _ l => l

end

/-- `LibreDWGTransformer._flatten_complex_dict`: generate the flattened
`(key, value)` assignments in order and replay them into a fresh dictionary
(later assignments to a colliding key overwrite in place). -/
def flattenComplexDict (d : PyDict) : PyDict :=
  (flattenPairs d).foldl (fun acc p => dictSet acc p.1 p.2) []

mutual

/-- `graph_loader._sanitize_data_types`: flatten complex dictionaries via the
transformer, recurse into plain dictionaries and lists, pass scalars through. -/
def sanitizeValue : Value → Value
  | .dict d =>
    if is_complex_nested_dict d then .dict (flattenComplexDict d)
    else .dict (sanitizeDictEntries d)
  | .list l => .list (sanitizeList l)
  | v => v
  termination_by structural v => v

def sanitizeDictEntries : PyDict → PyDict
  | [] => []
  | (k, v) :: rest => (k, sanitizeValue v) :: sanitizeDictEntries rest
  termination_by structural l => l

def sanitizeList : List Value → List Value
  | [] => []
  | v :: rest => sanitizeValue v :: sanitizeList rest
  termination_by structural l => l

end

/-- The dictionary branch of `_sanitize_data_types`. -/
def sanitizeDict (d : PyDict) : PyDict :=
  if is_complex_nested_dict d then flattenComplexDict d
  else sanitizeDictEntries d

/-- Does a dictionary have all of the coordinate keys
(`all(k in value for k in ['x', 'y', 'z'])`)? -/
def hasXYZ (d : PyDict) : Bool :=
  (dictFind? d "x").isSome && (dictFind? d "y").isSome && (dictFind? d "z").isSome

/-- One assignment of the property-flattening pass of `_merge_nodes_batch`:
coordinate dictionaries become `key_x/key_y/key_z`, non-empty lists whose
first element is a dictionary become a JSON string, and everything else is
forced Neo4j-safe. -/
def flatPassEntry (acc : PyDict) (k : String) (v : Value) : PyDict :=
  match v with
  | .dict dv =>
    if hasXYZ dv then
      dictSet
        (dictSet
          (dictSet acc (k ++ "_x") (dictGet dv "x"))
          (k ++ "_y") (dictGet dv "y"))
        (k ++ "_z") (dictGet dv "z")
    else dictSet acc k (force_neo4j_safe (.dict dv))
  | .list (h :: t) =>
    if isDictV h then dictSet acc k (.str (jsonDumps (.list (h :: t))))
    else dictSet acc k (force_neo4j_safe (.list (h :: t)))
  | _ => dictSet acc k (force_neo4j_safe v)

/-- The final per-label sweep of `_merge_nodes_batch`. There are no opaque
`Map` objects among modelled values and every modelled dictionary is
JSON-serializable, so a dictionary value passes the `json.dumps` test and is
kept as-is; all other values are kept as-is. -/
def secondSweep (props : PyDict) : PyDict :=
  props.map fun p =>
    match p.2 with
    | .dict dv => (p.1, Value.dict dv)
    | v => (p.1, v)

/-- The per-node preparation of `_merge_nodes_batch`: deep-sanitize the node,
pop `label` and `uid`, flatten the remaining properties, then run the final
sweep. Returns `(label, uid, props)`. -/
def mergePrepNode (node : PyDict) : Except String (Value × Value × PyDict) := do
  let sanitized := sanitizeDict node
  let some label := dictFind? sanitized "label" | .error "KeyError: label"
  let some uid := dictFind? sanitized "uid" | .error "KeyError: uid"
  let rest := dictPop (dictPop sanitized "label") "uid"
  let flat := rest.foldl (fun acc p => flatPassEntry acc p.1 p.2) []
  return (label, uid, secondSweep flat)

/-- The node-level preparation performed by `load_to_neo4j` followed by
`_merge_nodes_batch`: the payload is sanitized once up front
(`nodes = [_sanitize_data_types(node) for node in ...]`) and again inside the
batch merge. -/
def loadPrepNode (node : PyDict) : Except String (Value × Value × PyDict) :=
  mergePrepNode (sanitizeDict node)

/-!
## Retry-aware execution (`execute_with_official_retry_pattern`)

The outcome of the managed transaction at each attempt is a function of the
attempt index (`op`), and the uniform jitter sample `random.uniform(0, 1)`
drawn before the sleep of attempt `n` is `jitter n`. The result carries the
list of back-off delays slept, in order.
-/

/-- Outcome of one `session.execute_write` attempt. -/
inductive TxOutcome (α : Type) where
  | success (v : α)
  | transientErr
  | serviceUnavailable
  | authErr
  | otherErr
  deriving DecidableEq

/-- The exception (re)raised by the retry wrapper. -/
inductive RetryErr where
  | transientErr
  | serviceUnavailable
  | authErr
  | otherErr
  | runtimeErr
  deriving DecidableEq

/-- The `for attempt in range(max_retries)` loop of
`execute_with_official_retry_pattern`. A `TransientError` on the last attempt
is re-raised; otherwise the wrapper sleeps `2 ** attempt + jitter attempt`
seconds and retries. `ServiceUnavailable`/`AuthError` and any other exception
are re-raised immediately. Falling out of the loop raises `RuntimeError`. -/
def retryLoop {α : Type} (op : Nat → TxOutcome α) (jitter : Nat → ℚ)
    (max_retries : Nat) : (remaining : Nat) → (attempt : Nat) → List ℚ →
    Except RetryErr α × List ℚ
  | 0, _, delays => (.error .runtimeErr, delays)
  | remaining + 1, attempt, delays =>
    match op attempt with
    | .success v => (.ok v, delays)
    | .transientErr =>
      if attempt = max_retries - 1 then (.error .transientErr, delays)
      else retryLoop op jitter max_retries remaining (attempt + 1)
        (delays ++ [2 ^ attempt + jitter attempt])
    | .serviceUnavailable => (.error .serviceUnavailable, delays)
    | .authErr => (.error .authErr, delays)
    | .otherErr => (.error .otherErr, delays)

/-- `execute_with_official_retry_pattern(session, operation, max_retries=3)`:
`range(max_retries)` provides `max_retries` loop iterations. -/
def execute_with_official_retry_pattern {α : Type} (op : Nat → TxOutcome α)
    (jitter : Nat → ℚ) (max_retries : Nat := 3) : Except RetryErr α × List ℚ :=
  retryLoop op jitter max_retries max_retries 0 []

/-!
## Asynchronous OCR job manager (`async_ocr_processor.py`)
-/

/-- `JobStatus` from `async_ocr_processor.py`. -/
inductive JobStatus where
  | pending | processing | completed | failed | cancelled
  deriving DecidableEq

/-- The fields of an `OCRJob` relevant to cancellation and eviction. -/
structure OCRJob where
  status : JobStatus
  created_at : ℚ
  completed_at : Option ℚ
  deriving DecidableEq

/-- The in-memory job table `self.jobs` (insertion-ordered). -/
abbrev JobTable := List (String × OCRJob)

/-- `self.jobs.get(job_id)`. -/
def jobsFind? (t : JobTable) (job_id : String) : Option OCRJob :=
  (t.find? (fun p => p.1 = job_id)).map (·.2)

/-- `AsyncOCRProcessor.cancel_job`: under the table lock, succeed only when
the job exists and is `PENDING`, transitioning it to `CANCELLED` and stamping
`completed_at`. -/
def cancel_job (now : ℚ) (t : JobTable) (job_id : String) : Bool × JobTable :=
  match jobsFind? t job_id with
  | some j =>
    if j.status = .pending then
      (true, t.map fun p =>
        if p.1 = job_id then
          (p.1, { p.2 with status := .cancelled, completed_at := some now })
        else p)
    else (false, t)
  | Option.none => (false, t)

/-- What `_worker_loop` does with a job it dequeues. -/
inductive WorkerAction where
  | skipped | processed
  deriving DecidableEq

/-- `_worker_loop` on a dequeued job: a job observed as `CANCELLED` is
skipped (`continue`); otherwise `_process_job` runs. -/
def workerObserve (j : OCRJob) : WorkerAction :=
  if j.status = .cancelled then .skipped else .processed

/-- `AsyncOCRProcessor.cleanup_old_jobs(max_age_hours=24)`: collect the ids
of jobs strictly older than `max_age_hours * 3600` seconds and delete them
from the table. The Python method ends without a `return` statement, so its
return value is `None` (modelled by the second component). -/
def cleanup_old_jobs (max_age_hours : ℚ) (now : ℚ) (t : JobTable) :
    JobTable × Option Nat :=
  let max_age_seconds := max_age_hours * 3600
  let old_jobs := (t.filter fun p => now - p.2.created_at > max_age_seconds).map (·.1)
  let t' := old_jobs.foldl (fun acc id => acc.eraseP (fun p => p.1 = id)) t
  (t', Option.none)

/-!
## Singleton driver manager and `load_to_neo4j` driver lifecycle

Driver objects are identified by the order of their creation; a closed
object stays referenced by the manager (`driver.close()` does not reset
`Neo4jDriverManager._driver`, unlike `close_driver`). The repository does not
ship `neo4j_monitor`, so `clear_neo4j_data` always falls back to
`_clear_neo4j_traditional`.
-/

/-- Driver configuration read from the environment. -/
structure DriverCfg where
  uri : String
  user : String
  password : String
  deriving DecidableEq

/-- `Neo4jDriverManager` class state plus the set of closed driver objects. -/
structure DriverMgrState where
  driver : Option Nat
  driverConfig : Option DriverCfg
  nextId : Nat
  closedIds : List Nat
  deriving DecidableEq

/-- The state before any driver was created. -/
def initialDriverMgr : DriverMgrState :=
  { driver := Option.none, driverConfig := Option.none, nextId := 0, closedIds := [] }

/-- Is the driver object usable (not closed)? -/
def driverIsOpen (s : DriverMgrState) (d : Nat) : Bool :=
  !(s.closedIds.contains d)

/-- `Neo4jDriverManager.get_driver`: recreate the driver only when there is
none yet or the configuration changed; otherwise hand out the stored driver
object unchanged (whether or not somebody closed it). -/
def get_driver (cfg : DriverCfg) (s : DriverMgrState) : Nat × DriverMgrState :=
  if s.driver = Option.none ∨ s.driverConfig ≠ some cfg then
    let closed' := match s.driver with
      | some d => d :: s.closedIds
      | Option.none => s.closedIds
    (s.nextId,
     { driver := some s.nextId, driverConfig := some cfg,
       nextId := s.nextId + 1, closedIds := closed' })
  else (s.driver.getD 0, s)

/-- `driver.close()` called on a driver object directly: the object is closed
but the manager keeps referencing it. -/
def closeDriverObj (d : Nat) (s : DriverMgrState) : DriverMgrState :=
  { s with closedIds := d :: s.closedIds }

/-- `_clear_neo4j_traditional`: fetch the shared driver, run the
detach-delete, and close the shared driver. -/
def clear_neo4j_traditional (cfg : DriverCfg) (s : DriverMgrState) : DriverMgrState :=
  let (d, s1) := get_driver cfg s
  closeDriverObj d s1

/-- The driver lifecycle of one `load_to_neo4j` call: clear (which closes the
shared driver), fetch the driver for the batch writes, and close it again in
the `finally` block. Returns the driver object the batch writes used. -/
def load_to_neo4j_driver (cfg : DriverCfg) (s : DriverMgrState) :
    Nat × DriverMgrState :=
  let s1 := clear_neo4j_traditional cfg s
  let (d, s2) := get_driver cfg s1
  (d, closeDriverObj d s2)

/-!
## String normalization (`LibreDWGTransformer._normalize_string`)
-/

/-- The argument of `_normalize_string`: `Union[str, bytes]`. -/
inductive StrOrBytes where
  | str (s : String)
  | bytes (bs : List Nat)

/-- Is `b` a UTF-8 continuation byte? -/
def isCont (b : Nat) : Bool := 0x80 ≤ b ∧ b ≤ 0xBF

/-- Strict UTF-8 decoding as Python's `bytes.decode('utf-8')` performs it:
rejects invalid lead bytes, truncated sequences, overlong encodings,
surrogates and code points above `0x10FFFF`. -/
def utf8Decode : List Nat → Option (List Char)
  | [] => some []
  | b :: rest =>
    if b < 0x80 then (utf8Decode rest).map (fun cs => Char.ofNat b :: cs)
    else if 0xC2 ≤ b ∧ b ≤ 0xDF then
      match rest with
      | b1 :: rest2 =>
        if isCont b1 then
          (utf8Decode rest2).map
            (fun cs => Char.ofNat ((b - 0xC0) * 0x40 + (b1 - 0x80)) :: cs)
        else Option.none
      | [] => Option.none
    else if 0xE0 ≤ b ∧ b ≤ 0xEF then
      match rest with
      | b1 :: b2 :: rest2 =>
        let cp := (b - 0xE0) * 0x1000 + (b1 - 0x80) * 0x40 + (b2 - 0x80)
        if isCont b1 ∧ isCont b2 ∧ 0x800 ≤ cp ∧ ¬(0xD800 ≤ cp ∧ cp ≤ 0xDFFF) then
          (utf8Decode rest2).map (fun cs => Char.ofNat cp :: cs)
        else Option.none
      | _ => Option.none
    else if 0xF0 ≤ b ∧ b ≤ 0xF4 then
      match rest with
      | b1 :: b2 :: b3 :: rest2 =>
        let cp := (b - 0xF0) * 0x40000 + (b1 - 0x80) * 0x1000 +
          (b2 - 0x80) * 0x40 + (b3 - 0x80)
        if isCont b1 ∧ isCont b2 ∧ isCont b3 ∧ 0x10000 ≤ cp ∧ cp ≤ 0x10FFFF then
          (utf8Decode rest2).map (fun cs => Char.ofNat cp :: cs)
        else Option.none
      | _ => Option.none
    else Option.none

/-- `bytes.decode('latin-1')`: every byte maps to the code point of the same
value; it fails on nothing that is a byte. -/
def latin1Decode (bs : List Nat) : Option (List Char) :=
  if bs.all (· < 0x100) then some (bs.map Char.ofNat) else Option.none

/-- One byte of `bytes.decode('cp1252')`; the five unmapped bytes raise. -/
def cp1252Char (b : Nat) : Option Char :=
  if b = 0x81 ∨ b = 0x8D ∨ b = 0x8F ∨ b = 0x90 ∨ b = 0x9D then Option.none
  else if b < 0x80 ∨ (0xA0 ≤ b ∧ b < 0x100) then some (Char.ofNat b)
  else if b = 0x80 then some (Char.ofNat 0x20AC)
  else if b = 0x82 then some (Char.ofNat 0x201A)
  else if b = 0x83 then some (Char.ofNat 0x0192)
  else if b = 0x84 then some (Char.ofNat 0x201E)
  else if b = 0x85 then some (Char.ofNat 0x2026)
  else if b = 0x86 then some (Char.ofNat 0x2020)
  else if b = 0x87 then some (Char.ofNat 0x2021)
  else if b = 0x88 then some (Char.ofNat 0x02C6)
  else if b = 0x89 then some (Char.ofNat 0x2030)
  else if b = 0x8A then some (Char.ofNat 0x0160)
  else if b = 0x8B then some (Char.ofNat 0x2039)
  else if b = 0x8C then some (Char.ofNat 0x0152)
  else if b = 0x8E then some (Char.ofNat 0x017D)
  else if b = 0x91 then some (Char.ofNat 0x2018)
  else if b = 0x92 then some (Char.ofNat 0x2019)
  else if b = 0x93 then some (Char.ofNat 0x201C)
  else if b = 0x94 then some (Char.ofNat 0x201D)
  else if b = 0x95 then some (Char.ofNat 0x2022)
  else if b = 0x96 then some (Char.ofNat 0x2013)
  else if b = 0x97 then some (Char.ofNat 0x2014)
  else if b = 0x98 then some (Char.ofNat 0x02DC)
  else if b = 0x99 then some (Char.ofNat 0x2122)
  else if b = 0x9A then some (Char.ofNat 0x0161)
  else if b = 0x9B then some (Char.ofNat 0x203A)
  else if b = 0x9C then some (Char.ofNat 0x0153)
  else if b = 0x9E then some (Char.ofNat 0x017E)
  else if b = 0x9F then some (Char.ofNat 0x0178)
  else Option.none

/-- `bytes.decode('cp1252')`. -/
def cp1252Decode (bs : List Nat) : Option (List Char) :=
  bs.mapM cp1252Char

/-- `bytes.decode('utf-8', errors='replace')`: lossy decoding, replacing each
undecodable byte with U+FFFD. Total by construction. -/
def lossyUtf8 : List Nat → List Char
  | [] => []
  | b :: rest =>
    match utf8Decode [b] with
    | some [c] => c :: lossyUtf8 rest
    | _ => Char.ofNat 0xFFFD :: lossyUtf8 rest

/-- `LibreDWGTransformer._normalize_string`: strings pass through; bytes are
decoded trying `utf-8`, then `latin-1`, then `cp1252`, then lossy utf-8. -/
def normalize_string : StrOrBytes → String
  | .str s => s
  | .bytes bs =>
    match utf8Decode bs with
    | some cs => ⟨cs⟩
    | Option.none =>
      match latin1Decode bs with
      | some cs => ⟨cs⟩
      | Option.none =>
        match cp1252Decode bs with
        | some cs => ⟨cs⟩
        | Option.none => ⟨lossyUtf8 bs⟩

/-!
## Statement-level definitions and concrete fixtures
-/

/-- The uid of every node of a payload, in order. -/
def payloadUids (p : GraphPayload) : List Value :=
  p.nodes.map (fun n => dictGet n "uid")

/-- Number of nodes of a payload carrying a given label. -/
def labelCount (p : GraphPayload) (lbl : String) : Nat :=
  p.nodes.countP (fun n => dictGet n "label" = .str lbl)

/-- Is the entity a `SCALE_INFO` record (whole-file path dispatch)? -/
def isScaleEntity (e : PyDict) : Bool :=
  dictGet e "type" = .str "SCALE_INFO"

/-- Number of `SCALE_INFO` entities in a stream. -/
def scaleCount (es : List PyDict) : Nat := es.countP isScaleEntity

/-- Is the entity a closed `LWPOLYLINE` (whole-file path dispatch)? -/
def isClosedPolylineEntity (e : PyDict) : Bool :=
  dictGet e "type" = .str "LWPOLYLINE" && (dictGet e "is_closed").truthy

/-- Number of closed `LWPOLYLINE` entities in a stream. -/
def closedPolyCount (es : List PyDict) : Nat := es.countP isClosedPolylineEntity

/-- Number of `Space` nodes in a payload. -/
def spaceCount (p : GraphPayload) : Nat := labelCount p "Space"

/-- The back-off delays slept across the first `j` retried attempts:
`2 ** n + random.uniform(0, 1)` for `n = 0 .. j-1`. -/
def sleepsUpTo (jitter : Nat → ℚ) (j : Nat) : List ℚ :=
  (List.range j).map (fun k => 2 ^ k + jitter k)

/-- Does the payload contain a relationship from the given start label whose
end uid is `u`? -/
def hasIncomingFrom (p : GraphPayload) (startLbl : String) (u : Value) : Bool :=
  p.relationships.any (fun r =>
    dictGet r "start_label" = .str startLbl ∧ dictGet r "end_uid" = u)

/-- An `{x, y}` point record fixture. -/
def mkPoint (x y : Int) : Value :=
  .dict [("x", .int x), ("y", .int y)]

/-- A closed three-point `LWPOLYLINE` entity on the given layer. -/
def fixPoly (layer : String) : PyDict :=
  [("type", .str "LWPOLYLINE"), ("is_closed", .bool true),
   ("points", .list [mkPoint 0 0, mkPoint 10 0, mkPoint 10 10]),
   ("layer", .str layer)]

/-- Two closed polylines — the C1 fixture. -/
def fixTwoPolys : List PyDict := [fixPoly "A", fixPoly "B"]

/-- Eleven closed polylines — exceeds the 10-chunk streaming cap at
chunk size 1. -/
def fixManyPolys : List PyDict := (List.range 11).map (fun i => fixPoly (natStr i))

/-- A wall clock advancing 5 ms per chunk, starting at 1000. -/
def fixClock : Nat → Nat := fun i => 1000 + 5 * i

/-- A `SCALE_INFO` entity with an integer `DIMSCALE`. -/
def fixScale (d : Int) : PyDict :=
  [("type", .str "SCALE_INFO"), ("scales", .dict [("DIMSCALE", .int d)])]

/-- A `LINE` entity with coordinate records, as the transformer hands it to
the projector (`flatten_coordinates=False` keeps coordinates as dicts). -/
def fixLine : PyDict :=
  [("type", .str "LINE"),
   ("start", .dict [("x", .int 0), ("y", .int 0), ("z", .int 0)]),
   ("end", .dict [("x", .int 10), ("y", .int 0), ("z", .int 0)]),
   ("layer", .str "W")]

/-- A closed `LWPOLYLINE` with an empty point list. -/
def fixEmptyPoly : PyDict :=
  [("type", .str "LWPOLYLINE"), ("is_closed", .bool true), ("points", .list [])]

/-- An OCR enrichment payload with a single recognized word. -/
def fixOcrData : PyDict :=
  [("ocr_nodes", .list [.dict
    [("text", .str "SALA 101"), ("confidence", .int 1),
     ("region_id", .str "r1"), ("region_type", .str "legend")]])]

/-- The driver configuration used by the environment defaults. -/
def fixCfg : DriverCfg :=
  { uri := "neo4j://localhost:7687", user := "neo4j", password := "neo4j" }

/-- A two-job table: one pending, one already picked up by a worker. -/
def fixJobs : JobTable :=
  [("j1", ⟨.pending, 0, Option.none⟩), ("j2", ⟨.processing, 0, Option.none⟩)]

/-- The managed transaction fails transiently once, then succeeds. -/
def fixOpOk : Nat → TxOutcome Nat := fun k => if k = 0 then .transientErr else .success 42

/-- The managed transaction fails transiently once, then hits
`ServiceUnavailable`. -/
def fixOpUnavail : Nat → TxOutcome Nat :=
  fun k => if k = 0 then .transientErr else .serviceUnavailable

/-- Every attempt raises `TransientError`. -/
def fixOpTransient : Nat → TxOutcome Nat := fun _ => .transientErr

/-- A fixed jitter stream. -/
def fixJitter : Nat → ℚ := fun _ => 0

/-!
## Claim C2 — uid uniqueness and determinism
-/

def uidsOf (nodes : List PyDict) : List Value :=
  nodes.map (fun n => dictGet n "uid")

/-- Classification of one uid: a root uid, the hard-coded metadata uid, or a
prefixed counter uid strictly below the given next counter value. -/
def uidOk (sc wc fc ac : Nat) (u : Value) : Prop :=
  u = .str (new_uid "building" 1) ∨ u = .str (new_uid "floor" 1) ∨
  u = .str (new_uid "metadata" 1) ∨
  (∃ k, k < sc ∧ u = .str (new_uid "space" k)) ∨
  (∃ k, k < wc ∧ u = .str (new_uid "wall" k)) ∨
  (∃ k, k < fc ∧ u = .str (new_uid "feature" k)) ∨
  (∃ k, k < ac ∧ u = .str (new_uid "annotation" k))

/-- Every uid present in the projector state is classified. -/
def UidClass (st : TGState) : Prop :=
  ∀ u ∈ uidsOf st.nodes, uidOk st.space_c st.wall_c st.feature_c st.annot_c u

/-!
## Claim C3 — property flattening and graph-safety
-/

/-- Every dictionary-valued property that looks like a coordinate record
(`x`/`y`/`z` keys all present) has graph-safe scalar components. This is the
shape in which the projector emits coordinates. -/
def coordSafe (d : PyDict) : Bool :=
  d.all fun p =>
    match p.2 with
    | .dict dv =>
      !(hasXYZ dv) ||
        (safeTag (vtag (dictGet dv "x")) && safeTag (vtag (dictGet dv "y")) &&
          safeTag (vtag (dictGet dv "z")))
    | _ => true

theorem digitChar_lt_ten (d : Nat) (h : d < 10) : (digitChar d).toNat = 48 + d := by
  interval_cases d <;> rfl

theorem digitChar_ne_underscore (d : Nat) : digitChar d ≠ '_' := by
  unfold digitChar
  split <;> decide

theorem parseDec_append (l1 l2 : List Char) :
    parseDec (l1 ++ l2) = (l2.foldl (fun acc c => acc * 10 + (c.toNat - 48)) (parseDec l1)) := by
  simp [parseDec, List.foldl_append]

theorem parseDec_decDigitsAux (fuel : Nat) :
    ∀ n, n ≤ fuel → parseDec (decDigitsAux fuel n) = n := by
  induction fuel with
  | zero =>
    intro n hn
    have : n = 0 := Nat.le_zero.mp hn
    subst this
    simp [decDigitsAux, parseDec, List.foldl, digitChar_lt_ten 0 (by omega)]
  | succ fuel ih =>
    intro n hn
    rw [decDigitsAux]
    split
    · next h =>
      simp [parseDec, List.foldl, digitChar_lt_ten n h]
    · next h =>
      rw [parseDec_append]
      have hd : n / 10 < n := Nat.div_lt_self (by omega) (by omega)
      have hfuel : n / 10 ≤ fuel := by omega
      have hmod : n % 10 < 10 := Nat.mod_lt _ (by omega)
      simp [List.foldl, ih _ hfuel, digitChar_lt_ten _ hmod]
      omega

theorem parseDec_decDigits (n : Nat) : parseDec (decDigits n) = n :=
  parseDec_decDigitsAux n n le_rfl

theorem decDigitsAux_no_underscore (fuel : Nat) :
    ∀ n, '_' ∉ decDigitsAux fuel n := by
  induction fuel with
  | zero =>
    intro n
    simp [decDigitsAux, List.mem_singleton]
    exact fun h => (digitChar_ne_underscore n h.symm).elim
  | succ fuel ih =>
    intro n
    rw [decDigitsAux]
    split
    · simp [List.mem_singleton]
      exact fun h => (digitChar_ne_underscore n h.symm).elim
    · simp [List.mem_append]
      refine ⟨fun hm => ih _ hm, ?_⟩
      exact fun h => (digitChar_ne_underscore (n % 10) h.symm).elim

theorem decDigits_no_underscore (n : Nat) : '_' ∉ decDigits n :=
  decDigitsAux_no_underscore n n

/-- Splitting at the first occurrence of a separator absent from both left
parts is unique. -/
theorem append_sep_inj {l1 l2 r1 r2 : List Char}
    (h1 : '_' ∉ l1) (h2 : '_' ∉ l2)
    (he : l1 ++ '_' :: r1 = l2 ++ '_' :: r2) : l1 = l2 ∧ r1 = r2 := by
  induction l1 generalizing l2 with
  | nil =>
    cases l2 with
    | nil => simpa using he
    | cons b t =>
      simp at he
      exact absurd (he.1 ▸ List.mem_cons_self b t) (he.1 ▸ h2)
  | cons a t ih =>
    cases l2 with
    | nil =>
      simp at he
      exact absurd (he.1 ▸ List.mem_cons_self a t) (he.1 ▸ h1)
    | cons b t2 =>
      simp at he
      have := ih (fun hm => h1 (List.mem_cons_of_mem a hm))
        (fun hm => h2 (List.mem_cons_of_mem b hm)) he.2
      exact ⟨by simp [he.1, this.1], this.2⟩

theorem new_uid_inj {p1 p2 : String} {n1 n2 : Nat}
    (h1 : '_' ∉ p1.data) (h2 : '_' ∉ p2.data)
    (he : new_uid p1 n1 = new_uid p2 n2) : p1 = p2 ∧ n1 = n2 := by
  have hd : p1.data ++ '_' :: decDigits n1 = p2.data ++ '_' :: decDigits n2 := by
    have := congrArg String.data he
    simpa [new_uid, natStr, String.data_append] using this
  obtain ⟨hp, hn⟩ := append_sep_inj h1 h2 hd
  refine ⟨String.ext hp, ?_⟩
  have := congrArg parseDec hn
  rwa [parseDec_decDigits, parseDec_decDigits] at this

/-!
## Claim C9 — string normalization
-/

/-- C9: string normalization never raises. A `str` input passes through; for
`bytes`, the decoder chain tries `utf-8` first (any utf-8-decodable input
yields its utf-8 decoding), and any remaining byte string is decoded by
`latin-1`, which succeeds on every byte value — so the `cp1252` and lossy
stages are unreachable and every input yields a well-formed string. -/
theorem c9_normalize_string_total (bs : List Nat) (h : bs.all (· < 256) = true) :
    (∀ s, normalize_string (.str s) = s) ∧
    (∀ cs, utf8Decode bs = some cs → normalize_string (.bytes bs) = ⟨cs⟩) ∧
    (utf8Decode bs = Option.none →
      normalize_string (.bytes bs) = ⟨bs.map Char.ofNat⟩) := by
  refine ⟨fun s => rfl, fun cs hcs => by simp [normalize_string, hcs], fun hn => ?_⟩
  simp [normalize_string, hn, latin1Decode, h]

/-- Witness for C9 at concrete inputs: `b"C\xe9"` is not utf-8 and decodes
via latin-1 to `"Cé"`; `b"\xc3\xa9"` is utf-8 for `"é"`. -/
theorem c9_normalize_string_total_witness :
    normalize_string (.bytes [0x43, 0xE9]) = "Cé" ∧
    normalize_string (.bytes [0xC3, 0xA9]) = "é" := by
  constructor
  · have h1 := (c9_normalize_string_total [0x43, 0xE9] (by decide)).2.2 (by decide)
    exact h1.trans (by decide)
  · exact (c9_normalize_string_total [0xC3, 0xA9] (by decide)).2.1
      ['é'] (by decide)

/-!
## Claim C4 — driver reuse across ingests
-/

/-- C4 (code evaluated at the failing input): starting from a fresh manager,
one `load_to_neo4j` leaves the singleton manager holding driver `0` in the
closed state — `_clear_neo4j_traditional` and the `finally` block both close
the shared driver, and `get_driver` does not recreate it while the
configuration is unchanged. A second ingest therefore receives the same,
closed driver object; even the first ingest's own batch writes already run on
a driver closed by the Clear step. -/
theorem c4_driver_closed_after_load :
    (load_to_neo4j_driver fixCfg initialDriverMgr).1 = 0 ∧
    (get_driver fixCfg (load_to_neo4j_driver fixCfg initialDriverMgr).2).1 = 0 ∧
    (get_driver fixCfg (load_to_neo4j_driver fixCfg initialDriverMgr).2).2 =
      (load_to_neo4j_driver fixCfg initialDriverMgr).2 ∧
    driverIsOpen (load_to_neo4j_driver fixCfg initialDriverMgr).2
      (get_driver fixCfg (load_to_neo4j_driver fixCfg initialDriverMgr).2).1 = false ∧
    driverIsOpen (clear_neo4j_traditional fixCfg initialDriverMgr)
      (get_driver fixCfg (clear_neo4j_traditional fixCfg initialDriverMgr)).1 = false := by
  decide

/-!
## Claim C1 — streaming/whole-file equivalence
-/

/-- C1 (code evaluated at the failing input): on the same two closed
polylines, streaming with chunk size 1 (chunk clocks 1000 and 1005) yields
uids `space_1000`/`space_1005`; chunk size 2 yields `space_1000`/`space_1001`;
the whole-file path yields `space_1`/`space_2` — so neither are the uid sets
chunk-size-independent nor do streaming and whole-file ingests agree, because
`transform_chunk_to_graph` restarts every counter from the wall clock instead
of receiving counter state. With two chunks falling into the same millisecond
the streaming run even assigns the same uid `space_1000` twice. Independently,
the streaming loop stops after 10 chunks ("TESTING MODE"), so with chunk size
1 an 11-entity input loses its last entity (12 nodes instead of 13). -/
theorem c1_streaming_not_equivalent :
    (transform_to_graph_streaming "plan" fixClock 1 fixTwoPolys).map payloadUids =
      .ok [.str "building_1", .str "floor_1", .str "space_1000", .str "space_1005"] ∧
    (transform_to_graph_streaming "plan" fixClock 2 fixTwoPolys).map payloadUids =
      .ok [.str "building_1", .str "floor_1", .str "space_1000", .str "space_1001"] ∧
    (transform_to_graph "plan" fixTwoPolys).map payloadUids =
      .ok [.str "building_1", .str "floor_1", .str "space_1", .str "space_2"] ∧
    (transform_to_graph_streaming "plan" (fun _ => 1000) 1 fixTwoPolys).map payloadUids =
      .ok [.str "building_1", .str "floor_1", .str "space_1000", .str "space_1000"] ∧
    (transform_to_graph_streaming "plan" fixClock 1 fixManyPolys).map
      (fun p => p.nodes.length) = .ok 12 ∧
    (transform_to_graph "plan" fixManyPolys).map (fun p => p.nodes.length) = .ok 13 := by
  exact ⟨rfl, rfl, rfl, rfl, rfl, rfl⟩

/-!
## Counterexamples: C2, C3, C5, C6, C10
-/

/-- C2 counterexample: on an input with two `SCALE_INFO` entities the
whole-file projector emits two distinct `Metadata` nodes (different
`dimscale`) that share the uid `metadata_1` — `_new_uid("metadata", 1)` is
hard-coded — refuting global uid uniqueness. The streaming projector is
moreover wall-clock-dependent: the same chunk transformed at two different
timestamps gets different uids. -/
theorem c2_uid_not_unique :
    (transform_to_graph "plan" [fixScale 1, fixScale 2]).map (fun p =>
      p.nodes.map (fun n => (dictGet n "uid", dictGet n "dimscale"))) =
    .ok [(.str "building_1", .none), (.str "floor_1", .none),
         (.str "metadata_1", .int 1), (.str "metadata_1", .int 2)] ∧
    (transform_chunk_to_graph 1000 fixTwoPolys).map payloadUids ≠
      (transform_chunk_to_graph 2000 fixTwoPolys).map payloadUids := by
  refine ⟨rfl, ?_⟩
  intro h
  have : ([.str "space_1000", .str "space_1001"] : List Value) =
      [.str "space_2000", .str "space_2001"] := by
    have h1 : (transform_chunk_to_graph 1000 fixTwoPolys).map payloadUids =
        .ok [.str "space_1000", .str "space_1001"] := rfl
    have h2 : (transform_chunk_to_graph 2000 fixTwoPolys).map payloadUids =
        .ok [.str "space_2000", .str "space_2001"] := rfl
    rw [h1, h2] at h
    exact Except.ok.inj h
  exact absurd this (by decide)

/-- C3 counterexample: the projector output itself still carries record
properties — the `WallSegment` produced for a `LINE` entity keeps `start` and
`end` as `{x, y, z}` records (the flattening happens later, in the batch
writer), refuting "no property value is a record" for projector output. -/
theorem c3_projector_emits_records :
    (transform_to_graph "plan" [fixLine]).map (fun p =>
      p.nodes.any (fun n => n.any (fun kv => isDictV kv.2))) = .ok true ∧
    (transform_to_graph "plan" [fixLine]).map (fun p =>
      p.nodes.any (fun n => dictGet n "label" = .str "WallSegment" ∧
        isDictV (dictGet n "start") ∧ isDictV (dictGet n "end"))) = .ok true := by
  exact ⟨rfl, rfl⟩

/-- C5 counterexample: after OCR enrichment the `OCRText` node's only
incoming edge is `OCRRegion-[:CONTAINS_TEXT]->OCRText`; it has no incoming
edge from `Floor` or `Building`, refuting the claim for OCR nodes. -/
theorem c5_ocrtext_not_rooted :
    ((do
      let base ← transform_to_graph "plan" []
      enhance_graph_with_ocr base fixOcrData : Except String GraphPayload)).map (fun p =>
        p.nodes.any (fun n => dictGet n "label" = .str "OCRText" ∧
          ¬ (hasIncomingFrom p "Floor" (dictGet n "uid") ∨
             hasIncomingFrom p "Building" (dictGet n "uid")) ∧
          hasIncomingFrom p "OCRRegion" (dictGet n "uid"))) = .ok true := by
  rfl

/-- C6 counterexample: a closed `LWPOLYLINE` with an empty point list still
produces a `Space` node (`point_count = 0`); the projector has no minimum
point check and no discard counter. -/
theorem c6_empty_polyline_still_space :
    (transform_to_graph "plan" [fixEmptyPoly]).map (fun p =>
      p.nodes.any (fun n => dictGet n "label" = .str "Space" ∧
        dictGet n "point_count" = .int 0)) = .ok true ∧
    (transform_to_graph "plan" [fixEmptyPoly]).map spaceCount = .ok 1 := by
  exact ⟨rfl, rfl⟩

/-!
## Claim C10 — job eviction
-/

/-- C10 counterexample: with one job 90 000 s old and `max_age = 24` h, the
job is evicted but the method returns `None` — `cleanup_old_jobs` ends
without a `return` statement — not the count `1` the claim requires. -/
theorem c10_no_count_returned :
    (cleanup_old_jobs 24 90000 [("a", ⟨.pending, 0, Option.none⟩)]).1 = [] ∧
    (cleanup_old_jobs 24 90000 [("a", ⟨.pending, 0, Option.none⟩)]).2 = Option.none := by
  refine ⟨?_, rfl⟩
  simp [cleanup_old_jobs]
  norm_num

theorem key_unique {t : JobTable} (h : (t.map Prod.fst).Nodup) :
    ∀ p ∈ t, ∀ q ∈ t, p.1 = q.1 → p = q := by
  induction t with
  | nil => intro p hp; simp at hp
  | cons hd tl ih =>
    simp only [List.map_cons, List.nodup_cons] at h
    intro p hp q hq hk
    rcases List.mem_cons.mp hp with hp1 | hp1 <;>
      rcases List.mem_cons.mp hq with hq1 | hq1
    · rw [hp1, hq1]
    · subst hp1
      exfalso
      apply h.1
      have hmem : q.1 ∈ List.map Prod.fst tl := List.mem_map_of_mem Prod.fst hq1
      rwa [← hk] at hmem
    · subst hq1
      exfalso
      apply h.1
      have hmem : p.1 ∈ List.map Prod.fst tl := List.mem_map_of_mem Prod.fst hp1
      rwa [hk] at hmem
    · exact ih h.2 p hp1 q hq1 hk

theorem eraseP_key_eq_filter (t : JobTable) (id : String)
    (h : (t.map Prod.fst).Nodup) :
    t.eraseP (fun p => p.1 = id) = t.filter (fun p => ¬ p.1 = id) := by
  induction t with
  | nil => rfl
  | cons hd tl ih =>
    simp only [List.map_cons, List.nodup_cons] at h
    by_cases hk : hd.1 = id
    · rw [List.eraseP_cons_of_pos (by simp [hk]),
        List.filter_cons_of_neg (by simp [hk])]
      symm
      apply List.filter_eq_self.mpr
      intro p hp
      simp only [decide_eq_true_eq]
      intro hpk
      apply h.1
      have hmem : p.1 ∈ List.map Prod.fst tl := List.mem_map_of_mem Prod.fst hp
      rwa [hpk, ← hk] at hmem
    · rw [List.eraseP_cons_of_neg (by simp [hk]),
        List.filter_cons_of_pos (by simp [hk]), ih h.2]

theorem foldl_eraseP_eq_filter (ids : List String) :
    ∀ (t : JobTable), (t.map Prod.fst).Nodup →
    ids.foldl (fun acc id => acc.eraseP (fun p => p.1 = id)) t
      = t.filter (fun p => ¬ ids.contains p.1) := by
  induction ids with
  | nil =>
    intro t _
    simp [List.filter_eq_self]
  | cons id ids ih =>
    intro t h
    have hsub : ((t.filter (fun p => ¬ p.1 = id)).map Prod.fst).Nodup :=
      List.Nodup.sublist ((List.filter_sublist t).map Prod.fst) h
    simp only [List.foldl_cons]
    rw [eraseP_key_eq_filter t id h, ih _ hsub, List.filter_filter]
    apply List.filter_congr
    intro p _
    simp only [List.contains_cons, decide_not, Bool.not_or]
    rw [show (p.1 == id) = decide (p.1 = id) from rfl]
    cases hdec : decide (p.1 = id) <;> simp [hdec]

/-- C10 amended: `cleanup_old_jobs(max_age_hours)` evicts exactly the jobs
whose `created_at` is more than `max_age_hours * 3600` seconds old, keeps all
younger jobs in order, and returns `None` — the eviction count is only
printed, not returned. -/
theorem c10_cleanup_amended (max_age_hours now : ℚ) (t : JobTable)
    (h : (t.map Prod.fst).Nodup) :
    (cleanup_old_jobs max_age_hours now t).1 =
      t.filter (fun p => ¬ now - p.2.created_at > max_age_hours * 3600) ∧
    (cleanup_old_jobs max_age_hours now t).2 = Option.none := by
  refine ⟨?_, rfl⟩
  show ((t.filter fun p => now - p.2.created_at > max_age_hours * 3600).map (·.1)).foldl
      (fun acc id => acc.eraseP (fun p => p.1 = id)) t = _
  rw [foldl_eraseP_eq_filter _ t h]
  apply List.filter_congr
  intro p hp
  rw [decide_eq_decide]
  apply not_congr
  rw [List.contains_iff_exists_mem_beq]
  constructor
  · rintro ⟨k, hk, hbeq⟩
    have hkp : p.1 = k := eq_of_beq hbeq
    obtain ⟨q, hq, hqk⟩ := List.mem_map.mp hk
    obtain ⟨hqt, hqp⟩ := List.mem_filter.mp hq
    have hqe : q = p := key_unique h q hqt p hp (by rw [hqk, ← hkp])
    rw [← hqe]
    simpa using hqp
  · intro hpold
    exact ⟨p.1, List.mem_map_of_mem _ (List.mem_filter.mpr ⟨hp, by simpa using hpold⟩),
      by simp⟩

/-- Witness for C10 amended: a two-job table, one old and one fresh; only the
old job is evicted and the return value is `None`. -/
theorem c10_cleanup_amended_witness :
    (cleanup_old_jobs 24 90000
      [("a", ⟨.pending, 0, Option.none⟩), ("b", ⟨.pending, 89000, Option.none⟩)]).1 =
      [("a", (⟨.pending, 0, Option.none⟩ : OCRJob)),
       ("b", ⟨.pending, 89000, Option.none⟩)].filter
        (fun p => ¬ (90000 : ℚ) - p.2.created_at > 24 * 3600) ∧
    (cleanup_old_jobs 24 90000
      [("a", ⟨.pending, 0, Option.none⟩), ("b", ⟨.pending, 89000, Option.none⟩)]).2 =
      Option.none :=
  c10_cleanup_amended 24 90000 _ (by decide)

/-!
## Claim C8 — job cancellation
-/

theorem jobsFind?_update_self (t : JobTable) (id : String) (f : OCRJob → OCRJob) :
    jobsFind? (t.map fun p => if p.1 = id then (p.1, f p.2) else p) id
      = (jobsFind? t id).map f := by
  induction t with
  | nil => rfl
  | cons hd tl ih =>
    by_cases hk : hd.1 = id
    · simp only [List.map_cons, if_pos hk, jobsFind?]
      rw [List.find?_cons_of_pos _ (by simpa using hk),
        List.find?_cons_of_pos _ (by simpa using hk)]
      simp
    · simp only [List.map_cons, if_neg hk, jobsFind?]
      rw [List.find?_cons_of_neg _ (by simpa using hk),
        List.find?_cons_of_neg _ (by simpa using hk)]
      exact ih

theorem jobsFind?_update_other (t : JobTable) (id o : String) (f : OCRJob → OCRJob)
    (ho : o ≠ id) :
    jobsFind? (t.map fun p => if p.1 = id then (p.1, f p.2) else p) o
      = jobsFind? t o := by
  induction t with
  | nil => rfl
  | cons hd tl ih =>
    by_cases hk : hd.1 = id
    · have hno : ¬ hd.1 = o := by
        rw [hk]
        exact fun he => ho he.symm
      simp only [List.map_cons, if_pos hk, jobsFind?]
      rw [List.find?_cons_of_neg _ (by simpa using hno),
        List.find?_cons_of_neg _ (by simpa using hno)]
      exact ih
    · by_cases hko : hd.1 = o
      · simp only [List.map_cons, if_neg hk, jobsFind?]
        rw [List.find?_cons_of_pos _ (by simpa using hko),
          List.find?_cons_of_pos _ (by simpa using hko)]
      · simp only [List.map_cons, if_neg hk, jobsFind?]
        rw [List.find?_cons_of_neg _ (by simpa using hko),
          List.find?_cons_of_neg _ (by simpa using hko)]
        exact ih

/-- C8: `cancel_job` returns `true` iff the job exists and is `PENDING`; in
that case the job transitions to `CANCELLED` (stamping `completed_at`) and no
other job changes; in every other case it returns `false` and the table is
untouched (the job continues); and a worker that dequeues a `CANCELLED` job
skips it while any other job is processed. -/
theorem c8_cancel_pending_only (now : ℚ) (t : JobTable) (job_id : String) :
    ((cancel_job now t job_id).1 = true ↔
      ∃ j, jobsFind? t job_id = some j ∧ j.status = .pending) ∧
    (∀ j, jobsFind? t job_id = some j → j.status = .pending →
      jobsFind? (cancel_job now t job_id).2 job_id =
        some { j with status := .cancelled, completed_at := some now } ∧
      ∀ o, o ≠ job_id →
        jobsFind? (cancel_job now t job_id).2 o = jobsFind? t o) ∧
    (∀ j, jobsFind? t job_id = some j → j.status ≠ .pending →
      (cancel_job now t job_id).1 = false ∧ (cancel_job now t job_id).2 = t) ∧
    (jobsFind? t job_id = Option.none →
      (cancel_job now t job_id).1 = false ∧ (cancel_job now t job_id).2 = t) ∧
    (∀ j : OCRJob, j.status = .cancelled → workerObserve j = .skipped) ∧
    (∀ j : OCRJob, j.status ≠ .cancelled → workerObserve j = .processed) := by
  refine ⟨⟨?_, ?_⟩, ?_, ?_, ?_,
    fun j hj => by simp [workerObserve, hj],
    fun j hj => by simp [workerObserve, hj]⟩
  · intro h1
    unfold cancel_job at h1
    cases hfind : jobsFind? t job_id with
    | none =>
      rw [hfind] at h1
      simp at h1
    | some j =>
      rw [hfind] at h1
      by_cases hst : j.status = .pending
      · exact ⟨j, rfl, hst⟩
      · simp [hst] at h1
  · rintro ⟨j, hfind, hst⟩
    unfold cancel_job
    rw [hfind]
    simp [hst]
  · intro j hfind hst
    unfold cancel_job
    rw [hfind]
    simp only [if_pos hst]
    constructor
    · have hself := jobsFind?_update_self t job_id
        (fun jj => { jj with status := JobStatus.cancelled, completed_at := some now })
      rw [hfind] at hself
      exact hself
    · intro o ho
      exact jobsFind?_update_other t job_id o
        (fun jj => { jj with status := JobStatus.cancelled, completed_at := some now }) ho
  · intro j hfind hst
    unfold cancel_job
    rw [hfind]
    simp [hst]
  · intro hfind
    unfold cancel_job
    rw [hfind]
    exact ⟨rfl, rfl⟩

/-- Witness for C8 at a concrete table: the pending job cancels and becomes
`CANCELLED`; the processing job does not cancel and the table is unchanged;
a cancelled job is skipped by the worker loop. -/
theorem c8_cancel_pending_only_witness :
    (cancel_job 5 fixJobs "j1").1 = true ∧
    jobsFind? (cancel_job 5 fixJobs "j1").2 "j1" = some ⟨.cancelled, 0, some 5⟩ ∧
    (cancel_job 5 fixJobs "j2").1 = false ∧
    (cancel_job 5 fixJobs "j2").2 = fixJobs ∧
    workerObserve ⟨.cancelled, 0, some 5⟩ = .skipped := by
  refine ⟨?_, ?_, ?_, ?_, ?_⟩
  · exact (c8_cancel_pending_only 5 fixJobs "j1").1.mpr
      ⟨⟨.pending, 0, Option.none⟩, rfl, rfl⟩
  · exact ((c8_cancel_pending_only 5 fixJobs "j1").2.1
      ⟨.pending, 0, Option.none⟩ rfl rfl).1
  · exact ((c8_cancel_pending_only 5 fixJobs "j2").2.2.1
      ⟨.processing, 0, Option.none⟩ rfl (by decide)).1
  · exact ((c8_cancel_pending_only 5 fixJobs "j2").2.2.1
      ⟨.processing, 0, Option.none⟩ rfl (by decide)).2
  · exact (c8_cancel_pending_only 5 fixJobs "j1").2.2.2.2.1 _ rfl

/-!
## Claim C7 — retry-aware execution
-/

theorem retryLoop_transient_initial {α : Type} (op : Nat → TxOutcome α)
    (jitter : Nat → ℚ) (m : Nat) :
    ∀ j, j < m → (∀ k, k < j → op k = .transientErr) →
    retryLoop op jitter m m 0 [] =
      retryLoop op jitter m (m - j) j (sleepsUpTo jitter j) := by
  intro j
  induction j with
  | zero => intro _ _; simp [sleepsUpTo]
  | succ j ih =>
    intro hj htr
    rw [ih (by omega) (fun k hk => htr k (by omega))]
    have h1 : m - j = (m - (j + 1)) + 1 := by omega
    rw [h1, retryLoop, htr j (by omega)]
    rw [if_neg (by omega : ¬ j = m - 1)]
    simp [sleepsUpTo, List.range_succ]

/-- C7: under retry-aware execution, attempts are numbered from 0 and each
`TransientError` before the last attempt is followed by a sleep of
`2 ** n + U(0,1)` seconds; at most `max_retries` attempts are made, after
which the transient error is re-raised; `ServiceUnavailable` and `AuthError`
are re-raised immediately with no further attempt; any other exception is
fatal and never retried. The list component records the delays slept. -/
theorem c7_retry_classification {α : Type} (op : Nat → TxOutcome α)
    (jitter : Nat → ℚ) (m j : Nat) (hj : j < m)
    (htr : ∀ k, k < j → op k = .transientErr) :
    (∀ v, op j = .success v →
      execute_with_official_retry_pattern op jitter m =
        (.ok v, sleepsUpTo jitter j)) ∧
    (op j = .serviceUnavailable →
      execute_with_official_retry_pattern op jitter m =
        (.error .serviceUnavailable, sleepsUpTo jitter j)) ∧
    (op j = .authErr →
      execute_with_official_retry_pattern op jitter m =
        (.error .authErr, sleepsUpTo jitter j)) ∧
    (op j = .otherErr →
      execute_with_official_retry_pattern op jitter m =
        (.error .otherErr, sleepsUpTo jitter j)) ∧
    ((∀ k, k < m → op k = .transientErr) →
      execute_with_official_retry_pattern op jitter m =
        (.error .transientErr, sleepsUpTo jitter (m - 1))) := by
  have h1 : m - j = (m - j - 1) + 1 := by omega
  refine ⟨?_, ?_, ?_, ?_, ?_⟩
  · intro v hv
    unfold execute_with_official_retry_pattern
    rw [retryLoop_transient_initial op jitter m j hj htr, h1, retryLoop, hv]
  · intro hv
    unfold execute_with_official_retry_pattern
    rw [retryLoop_transient_initial op jitter m j hj htr, h1, retryLoop, hv]
  · intro hv
    unfold execute_with_official_retry_pattern
    rw [retryLoop_transient_initial op jitter m j hj htr, h1, retryLoop, hv]
  · intro hv
    unfold execute_with_official_retry_pattern
    rw [retryLoop_transient_initial op jitter m j hj htr, h1, retryLoop, hv]
  · intro hall
    unfold execute_with_official_retry_pattern
    rw [retryLoop_transient_initial op jitter m (m - 1) (by omega)
      (fun k hk => hall k (by omega))]
    have h2 : m - (m - 1) = 0 + 1 := by omega
    rw [h2, retryLoop, hall (m - 1) (by omega)]
    rw [if_pos rfl]

/-- Witness for C7 at concrete operations with `max_retries = 3`: a success
after one transient retry; an immediate fatal `ServiceUnavailable` on attempt
1; and exhaustion of all three attempts under persistent transient errors
(two sleeps, then the error is re-raised). -/
theorem c7_retry_classification_witness :
    execute_with_official_retry_pattern fixOpOk fixJitter 3 =
      (.ok 42, sleepsUpTo fixJitter 1) ∧
    execute_with_official_retry_pattern fixOpUnavail fixJitter 3 =
      (.error .serviceUnavailable, sleepsUpTo fixJitter 1) ∧
    execute_with_official_retry_pattern fixOpTransient fixJitter 3 =
      (.error .transientErr, sleepsUpTo fixJitter 2) := by
  refine ⟨?_, ?_, ?_⟩
  · exact (c7_retry_classification fixOpOk fixJitter 3 1 (by decide)
      (fun k hk => by
        have hk0 : k = 0 := by omega
        rw [hk0]
        rfl)).1 42 rfl
  · exact (c7_retry_classification fixOpUnavail fixJitter 3 1 (by decide)
      (fun k hk => by
        have hk0 : k = 0 := by omega
        rw [hk0]
        rfl)).2.1 rfl
  · exact (c7_retry_classification fixOpTransient fixJitter 3 0 (by decide)
      (fun k hk => absurd hk (by omega))).2.2.2.2 (fun k _ => rfl)

/-!
## Dictionary update/removal lemmas
-/

theorem find?_key_map_set (d : PyDict) (k : String) (v : Value) :
    (List.find? (fun p => p.1 = k) d).isSome = true →
    List.find? (fun p => p.1 = k)
      (d.map (fun p => if p.1 = k then (k, v) else p)) = some (k, v) := by
  induction d with
  | nil => intro h; simp at h
  | cons hd tl ih =>
    intro h
    by_cases hk : hd.1 = k
    · simp only [List.map_cons, if_pos hk]
      rw [List.find?_cons_of_pos _ (by simp)]
    · simp only [List.map_cons, if_neg hk]
      rw [List.find?_cons_of_neg _ (by simpa using hk)]
      apply ih
      rw [List.find?_cons_of_neg _ (by simpa using hk)] at h
      exact h

theorem find?_key_map_set_ne (d : PyDict) (k k' : String) (v : Value)
    (h : k' ≠ k) :
    List.find? (fun p => p.1 = k')
      (d.map (fun p => if p.1 = k then (k, v) else p)) =
    List.find? (fun p => p.1 = k') d := by
  induction d with
  | nil => rfl
  | cons hd tl ih =>
    by_cases hk : hd.1 = k
    · simp only [List.map_cons, if_pos hk]
      rw [List.find?_cons_of_neg _
          (by simp only [decide_eq_true_eq]; exact fun he => h he.symm),
        List.find?_cons_of_neg _
          (by simp only [hk, decide_eq_true_eq]; exact fun he => h he.symm)]
      exact ih
    · simp only [List.map_cons, if_neg hk]
      by_cases hk' : hd.1 = k'
      · rw [List.find?_cons_of_pos _ (by simpa using hk'),
          List.find?_cons_of_pos _ (by simpa using hk')]
      · rw [List.find?_cons_of_neg _ (by simpa using hk'),
          List.find?_cons_of_neg _ (by simpa using hk')]
        exact ih

theorem dictFind?_dictSet_self (d : PyDict) (k : String) (v : Value) :
    dictFind? (dictSet d k v) k = some v := by
  unfold dictSet
  split
  · next h =>
    unfold dictFind?
    rw [find?_key_map_set d k v h]
    rfl
  · next h =>
    unfold dictFind?
    rw [List.find?_append]
    have hnone : List.find? (fun p => p.1 = k) d = Option.none := by
      cases hf : List.find? (fun p => p.1 = k) d with
      | none => rfl
      | some x => rw [hf] at h; simp at h
    rw [hnone]
    simp [List.find?_cons]

theorem dictFind?_dictSet_ne (d : PyDict) (k k' : String) (v : Value)
    (h : k' ≠ k) :
    dictFind? (dictSet d k v) k' = dictFind? d k' := by
  unfold dictSet
  split
  · unfold dictFind?
    rw [find?_key_map_set_ne d k k' v h]
  · unfold dictFind?
    rw [List.find?_append]
    have hnone : List.find? (fun p => p.1 = k') [(k, v)] = Option.none := by
      rw [List.find?_cons_of_neg _
        (by simp only [decide_eq_true_eq]; exact fun he => h he.symm)]
      rfl
    rw [hnone]
    cases List.find? (fun p => p.1 = k') d <;> rfl

theorem dictFind?_dictPop_ne (d : PyDict) (k k' : String) (h : k' ≠ k) :
    dictFind? (dictPop d k) k' = dictFind? d k' := by
  unfold dictPop dictFind?
  induction d with
  | nil => rfl
  | cons hd tl ih =>
    by_cases hk : hd.1 = k
    · rw [List.filter_cons_of_neg (by simpa using hk)]
      rw [List.find?_cons_of_neg _
        (by simp only [hk, decide_eq_true_eq]; exact fun he => h he.symm)]
      exact ih
    · rw [List.filter_cons_of_pos (by simpa using hk)]
      by_cases hk' : hd.1 = k'
      · rw [List.find?_cons_of_pos _ (by simpa using hk'),
          List.find?_cons_of_pos _ (by simpa using hk')]
      · rw [List.find?_cons_of_neg _ (by simpa using hk'),
          List.find?_cons_of_neg _ (by simpa using hk')]
        exact ih

theorem dictGet_dictSet_ne (d : PyDict) (k k' : String) (v : Value)
    (h : k' ≠ k) : dictGet (dictSet d k v) k' = dictGet d k' := by
  unfold dictGet dictGetD
  rw [dictFind?_dictSet_ne d k k' v h]

theorem dictGet_dictPop_ne (d : PyDict) (k k' : String) (h : k' ≠ k) :
    dictGet (dictPop d k) k' = dictGet d k' := by
  unfold dictGet dictGetD
  rw [dictFind?_dictPop_ne d k k' h]

theorem mem_dictSet (d : PyDict) (k : String) (v : Value) :
    ∀ kv ∈ dictSet d k v, kv ∈ d ∨ kv = (k, v) := by
  unfold dictSet
  split
  · intro kv hkv
    obtain ⟨p, hp, hpe⟩ := List.mem_map.mp hkv
    by_cases hk : p.1 = k
    · right
      rw [← hpe, if_pos hk]
    · left
      rw [← hpe, if_neg hk]
      exact hp
  · intro kv hkv
    rcases List.mem_append.mp hkv with h1 | h1
    · exact Or.inl h1
    · right
      simpa using h1

theorem mem_dictPop (d : PyDict) (k : String) :
    ∀ kv ∈ dictPop d k, kv ∈ d := by
  intro kv hkv
  exact List.mem_of_mem_filter hkv

/-!
## Node-builder lemmas and the step-shape lemma for the whole-file projector
-/

theorem annotationNode_label (uid : String) (e : PyDict) (etype : Value) :
    dictGet (annotationNode uid e etype) "label" = .str "Annotation" := by
  unfold annotationNode
  dsimp only
  repeat' split
  all_goals
    repeat first
      | rw [dictGet_dictSet_ne _ _ _ _ (by decide)]
      | rw [dictGet_dictPop_ne _ _ _ (by decide)]
  all_goals rfl

theorem annotationNode_uid (uid : String) (e : PyDict) (etype : Value) :
    dictGet (annotationNode uid e etype) "uid" = .str uid := by
  unfold annotationNode
  dsimp only
  repeat' split
  all_goals
    repeat first
      | rw [dictGet_dictSet_ne _ _ _ _ (by decide)]
      | rw [dictGet_dictPop_ne _ _ _ (by decide)]
  all_goals rfl

theorem scale_iff (e : PyDict) :
    isScaleEntity e = true ↔ dictGet e "type" = Value.str "SCALE_INFO" := by
  simp [isScaleEntity]

theorem closedPoly_iff (e : PyDict) :
    isClosedPolylineEntity e = true ↔
      (dictGet e "type" = Value.str "LWPOLYLINE" ∧
        (dictGet e "is_closed").truthy = true) := by
  simp [isClosedPolylineEntity]

theorem scale_ne_of_type (e : PyDict) (s : String)
    (hs : dictGet e "type" = Value.str s) (hne : s ≠ "SCALE_INFO") :
    isScaleEntity e = false := by
  rw [← Bool.not_eq_true, scale_iff, hs]
  intro hc
  exact hne (Value.str.inj hc)

theorem closed_ne_of_type (e : PyDict) (s : String)
    (hs : dictGet e "type" = Value.str s) (hne : s ≠ "LWPOLYLINE") :
    isClosedPolylineEntity e = false := by
  rw [← Bool.not_eq_true, closedPoly_iff, hs]
  rintro ⟨hc, _⟩
  exact hne (Value.str.inj hc)

/-- Complete description of one whole-file projector step: either the entity
is dropped (and it is neither a `SCALE_INFO` nor a closed polyline), or
exactly one node and one relationship are appended — the relationship starts
at `Building` or `Floor` and ends at the new node's uid, the node's label is
never `Building`/`Floor`, and exactly the branch's uid counter advances. -/
theorem tgStep_shape (b f : String) (st : TGState) (e : PyDict) (st' : TGState)
    (h : tgStep b f st e = .ok st') :
    (st' = st ∧ isClosedPolylineEntity e = false ∧ isScaleEntity e = false) ∨
    ∃ (node : PyDict) (lbl pfx rt sl su : String) (cnt : Nat),
      st'.nodes = st.nodes ++ [node] ∧
      st'.rels = st.rels ++ [mkRel sl su rt lbl (new_uid pfx cnt)] ∧
      ((sl = "Building" ∧ su = b) ∨ (sl = "Floor" ∧ su = f)) ∧
      dictGet node "label" = .str lbl ∧
      dictGet node "uid" = .str (new_uid pfx cnt) ∧
      lbl ≠ "Building" ∧ lbl ≠ "Floor" ∧
      ((pfx = "metadata" ∧ cnt = 1 ∧ isScaleEntity e = true ∧
          isClosedPolylineEntity e = false ∧ lbl = "Metadata" ∧
          st'.space_c = st.space_c ∧ st'.wall_c = st.wall_c ∧
          st'.feature_c = st.feature_c ∧ st'.annot_c = st.annot_c) ∨
       (pfx = "space" ∧ cnt = st.space_c ∧ isScaleEntity e = false ∧
          isClosedPolylineEntity e = true ∧ lbl = "Space" ∧
          st'.space_c = st.space_c + 1 ∧ st'.wall_c = st.wall_c ∧
          st'.feature_c = st.feature_c ∧ st'.annot_c = st.annot_c) ∨
       (pfx = "wall" ∧ cnt = st.wall_c ∧ isScaleEntity e = false ∧
          isClosedPolylineEntity e = false ∧ lbl = "WallSegment" ∧
          st'.space_c = st.space_c ∧ st'.wall_c = st.wall_c + 1 ∧
          st'.feature_c = st.feature_c ∧ st'.annot_c = st.annot_c) ∨
       (pfx = "feature" ∧ cnt = st.feature_c ∧ isScaleEntity e = false ∧
          isClosedPolylineEntity e = false ∧
          (lbl = "Feature" ∨ lbl = "BlockReference") ∧
          st'.space_c = st.space_c ∧ st'.wall_c = st.wall_c ∧
          st'.feature_c = st.feature_c + 1 ∧ st'.annot_c = st.annot_c) ∨
       (pfx = "annotation" ∧ cnt = st.annot_c ∧ isScaleEntity e = false ∧
          isClosedPolylineEntity e = false ∧ lbl = "Annotation" ∧
          st'.space_c = st.space_c ∧ st'.wall_c = st.wall_c ∧
          st'.feature_c = st.feature_c ∧ st'.annot_c = st.annot_c + 1)) := by
  unfold tgStep at h
  by_cases h1 : dictGet e "type" = Value.str "SCALE_INFO"
  · rw [if_pos h1] at h
    cases hsd : dictGetD e "scales" (.dict []) with
    | none => rw [hsd] at h; simp [valueGetD, bind, Except.bind] at h
    | bool bb => rw [hsd] at h; simp [valueGetD, bind, Except.bind] at h
    | int i => rw [hsd] at h; simp [valueGetD, bind, Except.bind] at h
    | float q => rw [hsd] at h; simp [valueGetD, bind, Except.bind] at h
    | str s => rw [hsd] at h; simp [valueGetD, bind, Except.bind] at h
    | list l => rw [hsd] at h; simp [valueGetD, bind, Except.bind] at h
    | dict sd =>
      rw [hsd] at h
      simp only [valueGetD, bind, Except.bind, pure, Except.pure,
        Except.ok.injEq] at h
      subst h
      right
      refine ⟨_, "Metadata", "metadata", "HAS_METADATA", "Building", b, 1,
        rfl, rfl, Or.inl ⟨rfl, rfl⟩, rfl, rfl, by decide, by decide, ?_⟩
      left
      exact ⟨rfl, rfl, (scale_iff e).mpr h1,
        closed_ne_of_type e "SCALE_INFO" h1 (by decide),
        rfl, rfl, rfl, rfl, rfl⟩
  · rw [if_neg h1] at h
    by_cases h2 : dictGet e "type" = Value.str "LWPOLYLINE" ∧
        (dictGet e "is_closed").truthy = true
    · rw [if_pos h2] at h
      cases hpc : pyLen (dictGetD e "points" (.list [])) with
      | none => rw [hpc] at h; simp at h
      | some pc =>
        rw [hpc] at h
        simp only [pure, Except.pure, Except.ok.injEq] at h
        subst h
        right
        refine ⟨_, "Space", "space", "HAS_SPACE", "Floor", f, st.space_c,
          rfl, rfl, Or.inr ⟨rfl, rfl⟩, rfl, rfl, by decide, by decide, ?_⟩
        right; left
        exact ⟨rfl, rfl, scale_ne_of_type e "LWPOLYLINE" h2.1 (by decide),
          (closedPoly_iff e).mpr h2, rfl, rfl, rfl, rfl, rfl⟩
    · rw [if_neg h2] at h
      have hclosed : isClosedPolylineEntity e = false := by
        rw [← Bool.not_eq_true, closedPoly_iff]
        exact h2
      by_cases h3 : dictGet e "type" = Value.str "LINE"
      · rw [if_pos h3] at h
        simp only [pure, Except.pure, Except.ok.injEq] at h
        subst h
        right
        refine ⟨_, "WallSegment", "wall", "HAS_WALL", "Floor", f, st.wall_c,
          rfl, rfl, Or.inr ⟨rfl, rfl⟩, rfl, rfl, by decide, by decide, ?_⟩
        right; right; left
        exact ⟨rfl, rfl, scale_ne_of_type e "LINE" h3 (by decide), hclosed,
          rfl, rfl, rfl, rfl, rfl⟩
      · rw [if_neg h3] at h
        by_cases h4 : dictGet e "type" = Value.str "CIRCLE" ∨
            dictGet e "type" = Value.str "ARC"
        · rw [if_pos h4] at h
          simp only [pure, Except.pure, Except.ok.injEq] at h
          subst h
          right
          refine ⟨_, "Feature", "feature", "HAS_FEATURE", "Floor", f,
            st.feature_c, rfl, rfl, Or.inr ⟨rfl, rfl⟩, rfl, rfl,
            by decide, by decide, ?_⟩
          right; right; right; left
          have hscale : isScaleEntity e = false := by
            rcases h4 with h4 | h4
            · exact scale_ne_of_type e "CIRCLE" h4 (by decide)
            · exact scale_ne_of_type e "ARC" h4 (by decide)
          exact ⟨rfl, rfl, hscale, hclosed, Or.inl rfl, rfl, rfl, rfl, rfl⟩
        · rw [if_neg h4] at h
          by_cases h5 : dictGet e "type" = Value.str "TEXT" ∨
              dictGet e "type" = Value.str "MTEXT" ∨
              dictGet e "type" = Value.str "ATTRIB" ∨
              dictGet e "type" = Value.str "ATTDEF" ∨
              dictGet e "type" = Value.str "MULTILEADER"
          · rw [if_pos h5] at h
            simp only [pure, Except.pure, Except.ok.injEq] at h
            subst h
            right
            refine ⟨_, "Annotation", "annotation", "HAS_ANNOTATION", "Floor", f,
              st.annot_c, rfl, rfl, Or.inr ⟨rfl, rfl⟩,
              annotationNode_label _ e _, annotationNode_uid _ e _,
              by decide, by decide, ?_⟩
            right; right; right; right
            have hscale : isScaleEntity e = false := by
              rcases h5 with h5 | h5 | h5 | h5 | h5
              · exact scale_ne_of_type e "TEXT" h5 (by decide)
              · exact scale_ne_of_type e "MTEXT" h5 (by decide)
              · exact scale_ne_of_type e "ATTRIB" h5 (by decide)
              · exact scale_ne_of_type e "ATTDEF" h5 (by decide)
              · exact scale_ne_of_type e "MULTILEADER" h5 (by decide)
            exact ⟨rfl, rfl, hscale, hclosed, rfl, rfl, rfl, rfl, rfl⟩
          · rw [if_neg h5] at h
            by_cases h6 : dictGet e "type" = Value.str "INSERT"
            · rw [if_pos h6] at h
              simp only [pure, Except.pure, Except.ok.injEq] at h
              subst h
              right
              refine ⟨_, "BlockReference", "feature", "HAS_BLOCK_REFERENCE",
                "Floor", f, st.feature_c, rfl, rfl, Or.inr ⟨rfl, rfl⟩,
                rfl, rfl, by decide, by decide, ?_⟩
              right; right; right; left
              exact ⟨rfl, rfl, scale_ne_of_type e "INSERT" h6 (by decide),
                hclosed, Or.inr rfl, rfl, rfl, rfl, rfl⟩
            · rw [if_neg h6] at h
              simp only [pure, Except.pure, Except.ok.injEq] at h
              left
              have hscale : isScaleEntity e = false := by
                rw [← Bool.not_eq_true, scale_iff]
                exact h1
              exact ⟨h.symm, hclosed, hscale⟩

/-!
## Claim C6 — closed polylines always project to Spaces
-/

theorem tgRun_space_count (b f : String) :
    ∀ (es : List PyDict) (st st' : TGState), tgRun b f st es = .ok st' →
    st'.nodes.countP (fun n => dictGet n "label" = .str "Space") =
      st.nodes.countP (fun n => dictGet n "label" = .str "Space") +
        closedPolyCount es := by
  intro es
  induction es with
  | nil =>
    intro st st' h
    simp only [tgRun, Except.ok.injEq] at h
    subst h
    simp [closedPolyCount]
  | cons e rest ih =>
    intro st st' h
    simp only [tgRun] at h
    cases hstep : tgStep b f st e with
    | error err => rw [hstep] at h; simp [bind, Except.bind] at h
    | ok st1 =>
      rw [hstep] at h
      simp only [bind, Except.bind] at h
      have hrest := ih st1 st' h
      rcases tgStep_shape b f st e st1 hstep with
        ⟨heq, hcl, _⟩ | ⟨node, lbl, pfx, rt, sl, su, cnt, hnodes, _, _, hlbl, _, _, _, hcase⟩
      · rw [hrest, heq]
        simp [closedPolyCount, List.countP_cons, hcl]
      · rw [hrest, hnodes, List.countP_append]
        have hone : ∀ (L : String), lbl = L → L ≠ "Space" →
            List.countP (fun n => dictGet n "label" = Value.str "Space") [node] = 0 := by
          intro L hL hLne
          simp [List.countP_cons, hlbl, hL]
          intro hc
          exact hLne hc
        rcases hcase with ⟨_, _, _, hcl, hL, _⟩ | ⟨_, _, _, hcl, hL, _⟩ |
          ⟨_, _, _, hcl, hL, _⟩ | ⟨_, _, _, hcl, hL, _⟩ | ⟨_, _, _, hcl, hL, _⟩
        · rw [hone "Metadata" hL (by decide)]
          simp [closedPolyCount, List.countP_cons, hcl]
          try omega
        · have : List.countP (fun n => dictGet n "label" = Value.str "Space") [node] = 1 := by
            simp [List.countP_cons, hlbl, hL]
          rw [this]
          simp [closedPolyCount, List.countP_cons, hcl]
          try omega
        · rw [hone "WallSegment" hL (by decide)]
          simp [closedPolyCount, List.countP_cons, hcl]
          try omega
        · rcases hL with hL | hL
          · rw [hone "Feature" hL (by decide)]
            simp [closedPolyCount, List.countP_cons, hcl]
            try omega
          · rw [hone "BlockReference" hL (by decide)]
            simp [closedPolyCount, List.countP_cons, hcl]
            try omega
        · rw [hone "Annotation" hL (by decide)]
          simp [closedPolyCount, List.countP_cons, hcl]
          try omega

/-- C6 amended: the whole-file projector creates exactly one `Space` node per
closed `LWPOLYLINE`, with no minimum-point-count requirement — empty and
`< 3`-point closed polylines still become `Space` nodes (their `point_count`
records the length), and nothing is counted as discarded. -/
theorem c6_space_per_closed_polyline (stem : String) (es : List PyDict)
    (p : GraphPayload) (h : transform_to_graph stem es = .ok p) :
    spaceCount p = closedPolyCount es := by
  unfold transform_to_graph at h
  dsimp only at h
  cases hrun : tgRun "building_1" "floor_1"
      { nodes := [buildingNode stem, floorNode], rels := [hasFloorRel],
        space_c := 1, wall_c := 1, feature_c := 1, annot_c := 1 } es with
  | error err => rw [hrun] at h; simp [bind, Except.bind] at h
  | ok st' =>
    rw [hrun] at h
    simp only [bind, Except.bind, pure, Except.pure, Except.ok.injEq] at h
    subst h
    have := tgRun_space_count "building_1" "floor_1" es _ _ hrun
    unfold spaceCount labelCount
    rw [this]
    simp [buildingNode, List.countP_cons, floorNode, dictGet, dictGetD, dictFind?]

/-- Witness for C6 amended: one three-point closed polyline, one empty closed
polyline and one `LINE` yield exactly two `Space` nodes. -/
theorem c6_space_per_closed_polyline_witness :
    ∃ p, transform_to_graph "plan" [fixPoly "A", fixEmptyPoly, fixLine] = .ok p ∧
      spaceCount p = closedPolyCount [fixPoly "A", fixEmptyPoly, fixLine] ∧
      closedPolyCount [fixPoly "A", fixEmptyPoly, fixLine] = 2 := by
  refine ⟨_, rfl, ?_, by decide⟩
  exact c6_space_per_closed_polyline "plan" _ _ rfl

theorem uidOk_mono {sc wc fc ac sc' wc' fc' ac' : Nat} {u : Value}
    (hs : sc ≤ sc') (hw : wc ≤ wc') (hf : fc ≤ fc') (ha : ac ≤ ac')
    (h : uidOk sc wc fc ac u) : uidOk sc' wc' fc' ac' u := by
  unfold uidOk at h ⊢
  rcases h with h | h | h | ⟨k, hk, h⟩ | ⟨k, hk, h⟩ | ⟨k, hk, h⟩ | ⟨k, hk, h⟩
  · exact Or.inl h
  · exact Or.inr (Or.inl h)
  · exact Or.inr (Or.inr (Or.inl h))
  · exact Or.inr (Or.inr (Or.inr (Or.inl ⟨k, by omega, h⟩)))
  · exact Or.inr (Or.inr (Or.inr (Or.inr (Or.inl ⟨k, by omega, h⟩))))
  · exact Or.inr (Or.inr (Or.inr (Or.inr (Or.inr (Or.inl ⟨k, by omega, h⟩)))))
  · exact Or.inr (Or.inr (Or.inr (Or.inr (Or.inr (Or.inr ⟨k, by omega, h⟩)))))

theorem fresh_uid_of_class (st : TGState) (hc : UidClass st) (pfx : String)
    (cnt : Nat) (hpfx : '_' ∉ pfx.data)
    (hb : pfx ≠ "building") (hf : pfx ≠ "floor") (hm : pfx ≠ "metadata")
    (hbound : (pfx = "space" → st.space_c ≤ cnt) ∧
      (pfx = "wall" → st.wall_c ≤ cnt) ∧
      (pfx = "feature" → st.feature_c ≤ cnt) ∧
      (pfx = "annotation" → st.annot_c ≤ cnt)) :
    Value.str (new_uid pfx cnt) ∉ uidsOf st.nodes := by
  intro hmem
  have hok := hc _ hmem
  unfold uidOk at hok
  rcases hok with h | h | h | ⟨k, hk, h⟩ | ⟨k, hk, h⟩ | ⟨k, hk, h⟩ | ⟨k, hk, h⟩
  · exact hb (new_uid_inj hpfx (by decide) (Value.str.inj h)).1
  · exact hf (new_uid_inj hpfx (by decide) (Value.str.inj h)).1
  · exact hm (new_uid_inj hpfx (by decide) (Value.str.inj h)).1
  · obtain ⟨hp, hn⟩ := new_uid_inj hpfx (by decide) (Value.str.inj h)
    have := hbound.1 hp
    omega
  · obtain ⟨hp, hn⟩ := new_uid_inj hpfx (by decide) (Value.str.inj h)
    have := hbound.2.1 hp
    omega
  · obtain ⟨hp, hn⟩ := new_uid_inj hpfx (by decide) (Value.str.inj h)
    have := hbound.2.2.1 hp
    omega
  · obtain ⟨hp, hn⟩ := new_uid_inj hpfx (by decide) (Value.str.inj h)
    have := hbound.2.2.2 hp
    omega

theorem nodup_append_singleton {α : Type} {l : List α} {a : α}
    (hl : l.Nodup) (ha : a ∉ l) : (l ++ [a]).Nodup := by
  simp [List.nodup_append, hl, ha]

theorem tgRun_uid_nodup (b f : String) :
    ∀ (es : List PyDict) (st st' : TGState), tgRun b f st es = .ok st' →
    UidClass st → (uidsOf st.nodes).Nodup →
    scaleCount es +
      (if Value.str (new_uid "metadata" 1) ∈ uidsOf st.nodes then 1 else 0) ≤ 1 →
    (uidsOf st'.nodes).Nodup := by
  intro es
  induction es with
  | nil =>
    intro st st' h hclass hnd hbudget
    simp only [tgRun, Except.ok.injEq] at h
    subst h
    exact hnd
  | cons e rest ih =>
    intro st st' h hclass hnd hbudget
    simp only [tgRun] at h
    cases hstep : tgStep b f st e with
    | error err => rw [hstep] at h; simp [bind, Except.bind] at h
    | ok st1 =>
      rw [hstep] at h
      simp only [bind, Except.bind] at h
      rcases tgStep_shape b f st e st1 hstep with
        ⟨heq, _, hsc⟩ |
        ⟨node, lbl, pfx, rt, sl, su, cnt, hnodes, _, _, _, huid, _, _, hcase⟩
      · subst heq
        refine ih st1 st' h hclass hnd ?_
        have hse : scaleCount (e :: rest) = scaleCount rest := by
          simp [scaleCount, List.countP_cons, hsc]
        rw [hse] at hbudget
        exact hbudget
      · have huids1 : uidsOf st1.nodes =
            uidsOf st.nodes ++ [Value.str (new_uid pfx cnt)] := by
          rw [hnodes]; simp [uidsOf, huid]
        rcases hcase with ⟨hpfx, hcnt, hsc, _, _, e1, e2, e3, e4⟩ |
          ⟨hpfx, hcnt, hsc, _, _, e1, e2, e3, e4⟩ |
          ⟨hpfx, hcnt, hsc, _, _, e1, e2, e3, e4⟩ |
          ⟨hpfx, hcnt, hsc, _, _, e1, e2, e3, e4⟩ |
          ⟨hpfx, hcnt, hsc, _, _, e1, e2, e3, e4⟩
        · -- Metadata branch: the hard-coded metadata_1 uid consumes the budget
          subst hpfx; subst hcnt
          have hse : scaleCount (e :: rest) = scaleCount rest + 1 := by
            simp [scaleCount, List.countP_cons, hsc]
          rw [hse] at hbudget
          by_cases hmem : Value.str (new_uid "metadata" 1) ∈ uidsOf st.nodes
          · rw [if_pos hmem] at hbudget; omega
          · rw [if_neg hmem] at hbudget
            have hnd1 : (uidsOf st1.nodes).Nodup := by
              rw [huids1]; exact nodup_append_singleton hnd hmem
            have hclass1 : UidClass st1 := by
              intro u hu
              rw [huids1] at hu
              rcases List.mem_append.mp hu with hu | hu
              · exact uidOk_mono (by omega) (by omega) (by omega) (by omega)
                  (hclass u hu)
              · rw [List.mem_singleton] at hu
                subst hu
                unfold uidOk
                exact Or.inr (Or.inr (Or.inl rfl))
            refine ih st1 st' h hclass1 hnd1 ?_
            have hz : scaleCount rest = 0 := by omega
            rw [hz]
            split <;> omega
        · -- Space branch
          subst hpfx; subst hcnt
          have hse : scaleCount (e :: rest) = scaleCount rest := by
            simp [scaleCount, List.countP_cons, hsc]
          rw [hse] at hbudget
          have hfresh : Value.str (new_uid "space" st.space_c) ∉
              uidsOf st.nodes :=
            fresh_uid_of_class st hclass "space" st.space_c (by decide)
              (by decide) (by decide) (by decide)
              ⟨fun _ => Nat.le_refl _, fun hx => absurd hx (by decide),
               fun hx => absurd hx (by decide), fun hx => absurd hx (by decide)⟩
          have hnd1 : (uidsOf st1.nodes).Nodup := by
            rw [huids1]; exact nodup_append_singleton hnd hfresh
          have hclass1 : UidClass st1 := by
            intro u hu
            rw [huids1] at hu
            rcases List.mem_append.mp hu with hu | hu
            · exact uidOk_mono (by omega) (by omega) (by omega) (by omega)
                (hclass u hu)
            · rw [List.mem_singleton] at hu
              subst hu
              unfold uidOk
              exact Or.inr (Or.inr (Or.inr (Or.inl ⟨st.space_c, by omega, rfl⟩)))
          refine ih st1 st' h hclass1 hnd1 ?_
          have hmemeq : (Value.str (new_uid "metadata" 1) ∈ uidsOf st1.nodes) ↔
              (Value.str (new_uid "metadata" 1) ∈ uidsOf st.nodes) := by
            rw [huids1]
            simp only [List.mem_append, List.mem_singleton]
            constructor
            · rintro (hx | hx)
              · exact hx
              · exact absurd
                  ((new_uid_inj (by decide) (by decide) (Value.str.inj hx)).1)
                  (by decide)
            · exact Or.inl
          simp only [hmemeq]
          exact hbudget
        · -- Wall branch
          subst hpfx; subst hcnt
          have hse : scaleCount (e :: rest) = scaleCount rest := by
            simp [scaleCount, List.countP_cons, hsc]
          rw [hse] at hbudget
          have hfresh : Value.str (new_uid "wall" st.wall_c) ∉
              uidsOf st.nodes :=
            fresh_uid_of_class st hclass "wall" st.wall_c (by decide)
              (by decide) (by decide) (by decide)
              ⟨fun hx => absurd hx (by decide), fun _ => Nat.le_refl _,
               fun hx => absurd hx (by decide), fun hx => absurd hx (by decide)⟩
          have hnd1 : (uidsOf st1.nodes).Nodup := by
            rw [huids1]; exact nodup_append_singleton hnd hfresh
          have hclass1 : UidClass st1 := by
            intro u hu
            rw [huids1] at hu
            rcases List.mem_append.mp hu with hu | hu
            · exact uidOk_mono (by omega) (by omega) (by omega) (by omega)
                (hclass u hu)
            · rw [List.mem_singleton] at hu
              subst hu
              unfold uidOk
              exact Or.inr (Or.inr (Or.inr (Or.inr
                (Or.inl ⟨st.wall_c, by omega, rfl⟩))))
          refine ih st1 st' h hclass1 hnd1 ?_
          have hmemeq : (Value.str (new_uid "metadata" 1) ∈ uidsOf st1.nodes) ↔
              (Value.str (new_uid "metadata" 1) ∈ uidsOf st.nodes) := by
            rw [huids1]
            simp only [List.mem_append, List.mem_singleton]
            constructor
            · rintro (hx | hx)
              · exact hx
              · exact absurd
                  ((new_uid_inj (by decide) (by decide) (Value.str.inj hx)).1)
                  (by decide)
            · exact Or.inl
          simp only [hmemeq]
          exact hbudget
        · -- Feature / BlockReference branch
          subst hpfx; subst hcnt
          have hse : scaleCount (e :: rest) = scaleCount rest := by
            simp [scaleCount, List.countP_cons, hsc]
          rw [hse] at hbudget
          have hfresh : Value.str (new_uid "feature" st.feature_c) ∉
              uidsOf st.nodes :=
            fresh_uid_of_class st hclass "feature" st.feature_c (by decide)
              (by decide) (by decide) (by decide)
              ⟨fun hx => absurd hx (by decide), fun hx => absurd hx (by decide),
               fun _ => Nat.le_refl _, fun hx => absurd hx (by decide)⟩
          have hnd1 : (uidsOf st1.nodes).Nodup := by
            rw [huids1]; exact nodup_append_singleton hnd hfresh
          have hclass1 : UidClass st1 := by
            intro u hu
            rw [huids1] at hu
            rcases List.mem_append.mp hu with hu | hu
            · exact uidOk_mono (by omega) (by omega) (by omega) (by omega)
                (hclass u hu)
            · rw [List.mem_singleton] at hu
              subst hu
              unfold uidOk
              exact Or.inr (Or.inr (Or.inr (Or.inr (Or.inr
                (Or.inl ⟨st.feature_c, by omega, rfl⟩)))))
          refine ih st1 st' h hclass1 hnd1 ?_
          have hmemeq : (Value.str (new_uid "metadata" 1) ∈ uidsOf st1.nodes) ↔
              (Value.str (new_uid "metadata" 1) ∈ uidsOf st.nodes) := by
            rw [huids1]
            simp only [List.mem_append, List.mem_singleton]
            constructor
            · rintro (hx | hx)
              · exact hx
              · exact absurd
                  ((new_uid_inj (by decide) (by decide) (Value.str.inj hx)).1)
                  (by decide)
            · exact Or.inl
          simp only [hmemeq]
          exact hbudget
        · -- Annotation branch
          subst hpfx; subst hcnt
          have hse : scaleCount (e :: rest) = scaleCount rest := by
            simp [scaleCount, List.countP_cons, hsc]
          rw [hse] at hbudget
          have hfresh : Value.str (new_uid "annotation" st.annot_c) ∉
              uidsOf st.nodes :=
            fresh_uid_of_class st hclass "annotation" st.annot_c (by decide)
              (by decide) (by decide) (by decide)
              ⟨fun hx => absurd hx (by decide), fun hx => absurd hx (by decide),
               fun hx => absurd hx (by decide), fun _ => Nat.le_refl _⟩
          have hnd1 : (uidsOf st1.nodes).Nodup := by
            rw [huids1]; exact nodup_append_singleton hnd hfresh
          have hclass1 : UidClass st1 := by
            intro u hu
            rw [huids1] at hu
            rcases List.mem_append.mp hu with hu | hu
            · exact uidOk_mono (by omega) (by omega) (by omega) (by omega)
                (hclass u hu)
            · rw [List.mem_singleton] at hu
              subst hu
              unfold uidOk
              exact Or.inr (Or.inr (Or.inr (Or.inr (Or.inr (Or.inr
                ⟨st.annot_c, by omega, rfl⟩)))))
          refine ih st1 st' h hclass1 hnd1 ?_
          have hmemeq : (Value.str (new_uid "metadata" 1) ∈ uidsOf st1.nodes) ↔
              (Value.str (new_uid "metadata" 1) ∈ uidsOf st.nodes) := by
            rw [huids1]
            simp only [List.mem_append, List.mem_singleton]
            constructor
            · rintro (hx | hx)
              · exact hx
              · exact absurd
                  ((new_uid_inj (by decide) (by decide) (Value.str.inj hx)).1)
                  (by decide)
            · exact Or.inl
          simp only [hmemeq]
          exact hbudget

/-- C2 amended: the whole-file projector is deterministic (a pure function of
the entity ordering, with no wall-clock input), and uids are globally unique
within the ingest provided at most one `SCALE_INFO` entity occurs — the
`Metadata` uid is hard-coded to `metadata_1`, so a second `SCALE_INFO`
entity duplicates it (see the counterexample); all other uids come from
per-label counters and never collide. -/
theorem c2_uids_deterministic_unique (stem : String) (es : List PyDict)
    (p : GraphPayload) (h : transform_to_graph stem es = .ok p)
    (hscale : scaleCount es ≤ 1) :
    (payloadUids p).Nodup ∧
      ∀ p2, transform_to_graph stem es = .ok p2 → p2 = p := by
  refine ⟨?_, fun p2 h2 => Except.ok.inj (h2.symm.trans h)⟩
  unfold transform_to_graph at h
  dsimp only at h
  cases hrun : tgRun "building_1" "floor_1"
      { nodes := [buildingNode stem, floorNode], rels := [hasFloorRel],
        space_c := 1, wall_c := 1, feature_c := 1, annot_c := 1 } es with
  | error err => rw [hrun] at h; simp [bind, Except.bind] at h
  | ok st' =>
    rw [hrun] at h
    simp only [bind, Except.bind, pure, Except.pure, Except.ok.injEq] at h
    subst h
    have huids0 : uidsOf [buildingNode stem, floorNode] =
        [.str "building_1", .str "floor_1"] := rfl
    have hclass0 : UidClass { nodes := [buildingNode stem, floorNode],
                              rels := [hasFloorRel], space_c := 1, wall_c := 1,
                              feature_c := 1, annot_c := 1 } := by
      intro u hu
      rw [huids0] at hu
      unfold uidOk
      rcases List.mem_cons.mp hu with hu | hu
      · exact Or.inl (by rw [hu]; decide)
      · rcases List.mem_cons.mp hu with hu | hu
        · exact Or.inr (Or.inl (by rw [hu]; decide))
        · cases hu
    have hnd0 : (uidsOf [buildingNode stem, floorNode]).Nodup := by
      rw [huids0]; decide
    have hbud0 : scaleCount es +
        (if Value.str (new_uid "metadata" 1) ∈
            uidsOf [buildingNode stem, floorNode] then 1 else 0) ≤ 1 := by
      rw [huids0]
      have : (Value.str (new_uid "metadata" 1) ∈
          ([.str "building_1", .str "floor_1"] : List Value)) = False := by
        simp only [eq_iff_iff, iff_false]
        decide
      rw [if_neg (by rw [this]; exact id)]
      omega
    exact tgRun_uid_nodup "building_1" "floor_1" es _ _ hrun hclass0 hnd0 hbud0

/-- Witness for C2 amended: an input with one `SCALE_INFO`, one closed
polyline and one `LINE` produces a payload with pairwise-distinct uids. -/
theorem c2_uids_deterministic_unique_witness :
    ∃ p, transform_to_graph "plan" [fixScale 100, fixPoly "A", fixLine] = .ok p ∧
      (payloadUids p).Nodup := by
  refine ⟨_, rfl, ?_⟩
  exact (c2_uids_deterministic_unique "plan"
    [fixScale 100, fixPoly "A", fixLine] _ rfl (by decide)).1

/-!
## Claim C5 — root structure of the payload
-/

theorem exceptMapList_ok_mem {α β : Type} (g : α → Except String β) :
    ∀ (l : List α) (bs : List β), exceptMapList g l = .ok bs →
    ∀ b ∈ bs, ∃ a ∈ l, g a = .ok b := by
  intro l
  induction l with
  | nil =>
    intro bs h b hb
    simp only [exceptMapList, Except.ok.injEq] at h
    subst h
    cases hb
  | cons a as ih =>
    intro bs h b hb
    simp only [exceptMapList] at h
    cases hga : g a with
    | error e => rw [hga] at h; simp [bind, Except.bind] at h
    | ok b0 =>
      rw [hga] at h
      simp only [bind, Except.bind] at h
      cases hrest : exceptMapList g as with
      | error e => rw [hrest] at h; simp [bind, Except.bind] at h
      | ok bs0 =>
        rw [hrest] at h
        simp only [bind, Except.bind, pure, Except.pure, Except.ok.injEq] at h
        subst h
        rcases List.mem_cons.mp hb with hb | hb
        · exact ⟨a, List.mem_cons_self _ _, hb ▸ hga⟩
        · obtain ⟨a2, ha2, hga2⟩ := ih bs0 hrest b hb
          exact ⟨a2, List.mem_cons_of_mem _ ha2, hga2⟩

theorem contains_false_not_mem {l : List Value} {a : Value}
    (h : l.contains a = false) : a ∉ l := by
  intro hm
  have h2 : l.contains a = true :=
    List.contains_iff_exists_mem_beq.mpr ⟨a, hm, by simp⟩
  rw [h2] at h
  cases h

theorem mem_dedupAux (a : Value) :
    ∀ (l : List Value) (seen : List Value), a ∈ l → seen.contains a = false →
    a ∈ dedupAux seen l := by
  intro l
  induction l with
  | nil => intro seen ha _; cases ha
  | cons v rest ih =>
    intro seen ha hs
    unfold dedupAux
    by_cases hav : a = v
    · subst hav
      rw [if_neg (by rw [hs]; exact Bool.false_ne_true)]
      exact List.mem_cons_self _ _
    · rcases List.mem_cons.mp ha with ha | ha
      · exact absurd ha hav
      · by_cases hv : seen.contains v = true
        · rw [if_pos hv]
          exact ih seen ha hs
        · rw [if_neg hv]
          refine List.mem_cons_of_mem _ (ih (v :: seen) ha ?_)
          have h1 : (a == v) = false := by
            simp only [beq_eq_false_iff_ne, ne_eq]
            exact hav
          simp only [List.contains_cons, h1, Bool.false_or]
          exact hs

theorem mem_dedupKeys (a : Value) (l : List Value) (ha : a ∈ l) :
    a ∈ dedupKeys l :=
  mem_dedupAux a l [] ha rfl

theorem new_uid_ne_empty (p : String) (n : Nat) : new_uid p n ≠ "" := by
  intro h
  have hd := congrArg String.data h
  simp [new_uid, natStr, String.data_append] at hd

theorem tgRun_rooted (b f : String) :
    ∀ (es : List PyDict) (st st' : TGState), tgRun b f st es = .ok st' →
    (∀ n ∈ st.nodes, dictGet n "label" = .str "Building" ∨
      dictGet n "label" = .str "Floor" ∨
      ∃ r ∈ st.rels, (dictGet r "start_label" = .str "Building" ∨
        dictGet r "start_label" = .str "Floor") ∧
        dictGet r "end_uid" = dictGet n "uid") →
    ∀ n ∈ st'.nodes, dictGet n "label" = .str "Building" ∨
      dictGet n "label" = .str "Floor" ∨
      ∃ r ∈ st'.rels, (dictGet r "start_label" = .str "Building" ∨
        dictGet r "start_label" = .str "Floor") ∧
        dictGet r "end_uid" = dictGet n "uid" := by
  intro es
  induction es with
  | nil =>
    intro st st' h hinv
    simp only [tgRun, Except.ok.injEq] at h
    subst h
    exact hinv
  | cons e rest ih =>
    intro st st' h hinv
    simp only [tgRun] at h
    cases hstep : tgStep b f st e with
    | error err => rw [hstep] at h; simp [bind, Except.bind] at h
    | ok st1 =>
      rw [hstep] at h
      simp only [bind, Except.bind] at h
      refine ih st1 st' h ?_
      rcases tgStep_shape b f st e st1 hstep with ⟨heq, _, _⟩ |
        ⟨node, lbl, pfx, rt, sl, su, cnt, hnodes, hrels, hsl, hlbl, huid, _, _, _⟩
      · rw [heq]; exact hinv
      · intro n hn
        rw [hnodes] at hn
        rcases List.mem_append.mp hn with hn | hn
        · rcases hinv n hn with h1 | h1 | ⟨r, hr, hprop⟩
          · exact Or.inl h1
          · exact Or.inr (Or.inl h1)
          · exact Or.inr (Or.inr ⟨r,
              by rw [hrels]; exact List.mem_append_left _ hr, hprop⟩)
        · rw [List.mem_singleton] at hn
          subst hn
          right; right
          refine ⟨mkRel sl su rt lbl (new_uid pfx cnt),
            by rw [hrels]; exact List.mem_append_right _ (List.mem_singleton_self _),
            ?_, ?_⟩
          · rcases hsl with ⟨hsl, _⟩ | ⟨hsl, _⟩
            · exact Or.inl (by rw [hsl]; exact rfl)
            · exact Or.inr (by rw [hsl]; exact rfl)
          · rw [huid]; exact rfl

theorem tgRun_root_label_count (b f L : String) (hB : L = "Building" ∨ L = "Floor") :
    ∀ (es : List PyDict) (st st' : TGState), tgRun b f st es = .ok st' →
    st'.nodes.countP (fun n => dictGet n "label" = .str L) =
      st.nodes.countP (fun n => dictGet n "label" = .str L) := by
  intro es
  induction es with
  | nil =>
    intro st st' h
    simp only [tgRun, Except.ok.injEq] at h
    subst h
    rfl
  | cons e rest ih =>
    intro st st' h
    simp only [tgRun] at h
    cases hstep : tgStep b f st e with
    | error err => rw [hstep] at h; simp [bind, Except.bind] at h
    | ok st1 =>
      rw [hstep] at h
      simp only [bind, Except.bind] at h
      have hrest := ih st1 st' h
      rcases tgStep_shape b f st e st1 hstep with ⟨heq, _, _⟩ |
        ⟨node, lbl, pfx, rt, sl, su, cnt, hnodes, _, _, hlbl, _, hnb, hnf, _⟩
      · rw [hrest, heq]
      · rw [hrest, hnodes, List.countP_append]
        have hz : List.countP (fun n => dictGet n "label" = Value.str L) [node] = 0 := by
          simp [List.countP_cons, hlbl]
          intro hc
          rcases hB with hB | hB <;> subst hB
          · exact hnb hc
          · exact hnf hc
        rw [hz]
        omega

theorem ocr_nodes_covered (d : PyDict) (fu : String) (ns rs : List PyDict)
    (hn : create_ocr_nodes d = .ok ns)
    (hr : create_ocr_relationships d fu = .ok rs) :
    ∀ n ∈ ns,
      (dictGet n "label" = .str "OCRText" ∧
        ∃ r ∈ rs, dictGet r "start_label" = .str "OCRRegion" ∧
          dictGet r "end_uid" = dictGet n "uid") ∨
      (dictGet n "label" = .str "OCRRegion" ∧
        ∃ r ∈ rs, dictGet r "start_label" = .str "Floor" ∧
          dictGet r "end_uid" = dictGet n "uid") := by
  unfold create_ocr_nodes at hn
  unfold create_ocr_relationships at hr
  cases hitems : ocrItems d with
  | error e => rw [hitems] at hn; simp [bind, Except.bind] at hn
  | ok items =>
    rw [hitems] at hn hr
    simp only [bind, Except.bind] at hn hr
    cases hreg : exceptMapList (ocrRegionNode items)
        (dedupKeys (items.map regionIdOf)).enum with
    | error e => rw [hreg] at hn; simp [bind, Except.bind] at hn
    | ok regionNodes =>
      rw [hreg] at hn
      simp only [pure, Except.pure, Except.ok.injEq] at hn
      subst hn
      cases hval : asList (dictGetD d "validation_relationships" (.list [])) with
      | error e => rw [hval] at hr; simp [bind, Except.bind] at hr
      | ok validations =>
        rw [hval] at hr
        simp only [bind, Except.bind] at hr
        cases hvd : asDicts validations with
        | error e => rw [hvd] at hr; simp [bind, Except.bind] at hr
        | ok validationDicts =>
          rw [hvd] at hr
          simp only [bind, Except.bind] at hr
          cases hdis : asList (dictGetD d "discovery_relationships" (.list [])) with
          | error e => rw [hdis] at hr; simp [bind, Except.bind] at hr
          | ok discoveries =>
            rw [hdis] at hr
            simp only [bind, Except.bind] at hr
            cases hdd : asDicts discoveries with
            | error e => rw [hdd] at hr; simp [bind, Except.bind] at hr
            | ok discoveryDicts =>
              rw [hdd] at hr
              simp only [bind, Except.bind, pure, Except.pure,
                Except.ok.injEq] at hr
              subst hr
              intro n hmem
              rcases List.mem_append.mp hmem with hmem | hmem
              · obtain ⟨p, hp, rfl⟩ := List.mem_map.mp hmem
                left
                refine ⟨rfl, ?_⟩
                have hitem : p.2 ∈ items :=
                  List.getElem?_mem (List.mem_enum_iff_getElem?.mp hp)
                have hrid : regionIdOf p.2 ∈ dedupKeys (items.map regionIdOf) :=
                  mem_dedupKeys _ _ (List.mem_map_of_mem _ hitem)
                obtain ⟨k, hk, hkeq⟩ := List.mem_iff_getElem.mp hrid
                have hmemenum : (k, regionIdOf p.2) ∈
                    (dedupKeys (items.map regionIdOf)).enum := by
                  rw [List.mk_mem_enum_iff_getElem?]
                  rw [List.getElem?_eq_getElem hk, hkeq]
                have hsome : ((dedupKeys (items.map regionIdOf)).enum.find?
                    (fun q => q.2 = regionIdOf p.2)).isSome := by
                  rw [List.find?_isSome]
                  exact ⟨(k, regionIdOf p.2), hmemenum, by simp⟩
                obtain ⟨q, hq⟩ := Option.isSome_iff_exists.mp hsome
                have hmapeq : regionUidMap (dedupKeys (items.map regionIdOf))
                    (regionIdOf p.2) = some (new_uid "ocr_region" (q.1 + 1)) := by
                  unfold regionUidMap
                  rw [hq]
                  rfl
                have hcontains : ocrContainsRel (dedupKeys (items.map regionIdOf))
                    p = some (mkRel "OCRRegion" (new_uid "ocr_region" (q.1 + 1))
                      "CONTAINS_TEXT" "OCRText" (new_uid "ocr_text" (p.1 + 1))) := by
                  unfold ocrContainsRel
                  rw [hmapeq]
                  dsimp only
                  rw [if_pos (new_uid_ne_empty _ _)]
                refine ⟨mkRel "OCRRegion" (new_uid "ocr_region" (q.1 + 1))
                    "CONTAINS_TEXT" "OCRText" (new_uid "ocr_text" (p.1 + 1)),
                  ?_, rfl, rfl⟩
                apply List.mem_append_left
                apply List.mem_append_left
                apply List.mem_append_right
                exact List.mem_filterMap.mpr ⟨p, hp, hcontains⟩
              · obtain ⟨q, hq, hnode⟩ := exceptMapList_ok_mem _ _ _ hreg n hmem
                unfold ocrRegionNode at hnode
                dsimp only at hnode
                cases hconf : exceptMapList
                    (fun item => toNum (dictGetD item "confidence" (.float 0)))
                    (items.filter (fun item => regionIdOf item = q.2)) with
                | error e => rw [hconf] at hnode; simp [bind, Except.bind] at hnode
                | ok confs =>
                  rw [hconf] at hnode
                  simp only [bind, Except.bind, pure, Except.pure,
                    Except.ok.injEq] at hnode
                  subst hnode
                  right
                  refine ⟨rfl, mkRel "Floor" fu "HAS_OCR_REGION" "OCRRegion"
                    (new_uid "ocr_region" (q.1 + 1)), ?_, rfl, rfl⟩
                  apply List.mem_append_left
                  apply List.mem_append_left
                  apply List.mem_append_left
                  exact List.mem_map_of_mem _ hq

theorem hasIncomingFrom_of_mem (p : GraphPayload) (lbl : String) (u : Value)
    (r : PyDict) (hr : r ∈ p.relationships)
    (h1 : dictGet r "start_label" = .str lbl) (h2 : dictGet r "end_uid" = u) :
    hasIncomingFrom p lbl u = true := by
  unfold hasIncomingFrom
  rw [List.any_eq_true]
  exact ⟨r, hr, by rw [decide_eq_true_eq]; exact ⟨h1, h2⟩⟩

/-- C5 amended: the enhanced payload keeps exactly one `Building` and exactly
one `Floor` node, and every other node has an incoming edge from `Building`
or `Floor` — except the `OCRText` nodes, whose only guaranteed incoming edge
is `CONTAINS_TEXT` from their `OCRRegion` node (the counterexample shows the
`Floor`/`Building` rooting claimed by the spec really fails for them). -/
theorem c5_roots_amended (stem : String) (es : List PyDict) (ocrData : PyDict)
    (base p : GraphPayload)
    (hb : transform_to_graph stem es = .ok base)
    (he : enhance_graph_with_ocr base ocrData = .ok p) :
    labelCount p "Building" = 1 ∧ labelCount p "Floor" = 1 ∧
    ∀ n ∈ p.nodes,
      dictGet n "label" = .str "Building" ∨ dictGet n "label" = .str "Floor" ∨
      hasIncomingFrom p "Building" (dictGet n "uid") = true ∨
      hasIncomingFrom p "Floor" (dictGet n "uid") = true ∨
      (dictGet n "label" = .str "OCRText" ∧
        hasIncomingFrom p "OCRRegion" (dictGet n "uid") = true) := by
  unfold transform_to_graph at hb
  dsimp only at hb
  cases hrun : tgRun "building_1" "floor_1"
      { nodes := [buildingNode stem, floorNode], rels := [hasFloorRel],
        space_c := 1, wall_c := 1, feature_c := 1, annot_c := 1 } es with
  | error err => rw [hrun] at hb; simp [bind, Except.bind] at hb
  | ok st' =>
    rw [hrun] at hb
    simp only [bind, Except.bind, pure, Except.pure, Except.ok.injEq] at hb
    subst hb
    unfold enhance_graph_with_ocr at he
    cases hocr : create_ocr_nodes ocrData with
    | error e => rw [hocr] at he; simp [bind, Except.bind] at he
    | ok ocr_nodes =>
      rw [hocr] at he
      simp only [bind, Except.bind] at he
      cases hrel : create_ocr_relationships ocrData with
      | error e => rw [hrel] at he; simp [bind, Except.bind] at he
      | ok ocr_rels =>
        rw [hrel] at he
        simp only [bind, Except.bind, pure, Except.pure, Except.ok.injEq] at he
        subst he
        have hcov := ocr_nodes_covered ocrData "floor_1" ocr_nodes ocr_rels
          hocr hrel
        have hcnt := fun (L : String) (hL : L = "Building" ∨ L = "Floor") =>
          tgRun_root_label_count "building_1" "floor_1" L hL es _ _ hrun
        have hozero : ∀ L, L = "Building" ∨ L = "Floor" →
            List.countP (fun n => dictGet n "label" = .str L) ocr_nodes = 0 := by
          intro L hL
          rw [List.countP_eq_zero]
          intro n hn
          simp only [decide_eq_true_eq]
          intro hc
          rcases hcov n hn with ⟨hlbl, _⟩ | ⟨hlbl, _⟩ <;>
            rw [hlbl] at hc <;>
            rcases hL with hL | hL <;> subst hL <;>
            exact absurd (Value.str.inj hc) (by decide)
        refine ⟨?_, ?_, ?_⟩
        · unfold labelCount
          dsimp only
          rw [List.countP_append, hozero "Building" (Or.inl rfl),
            hcnt "Building" (Or.inl rfl)]
          simp [buildingNode, floorNode, List.countP_cons, dictGet, dictGetD,
            dictFind?]
        · unfold labelCount
          dsimp only
          rw [List.countP_append, hozero "Floor" (Or.inr rfl),
            hcnt "Floor" (Or.inr rfl)]
          simp [buildingNode, floorNode, List.countP_cons, dictGet, dictGetD,
            dictFind?]
        · have hrooted := tgRun_rooted "building_1" "floor_1" es _ _ hrun ?_
          · intro n hn
            dsimp only at hn
            rcases List.mem_append.mp hn with hn | hn
            · rcases hrooted n hn with h1 | h1 | ⟨r, hrm, hstart, hend⟩
              · exact Or.inl h1
              · exact Or.inr (Or.inl h1)
              · rcases hstart with hstart | hstart
                · refine Or.inr (Or.inr (Or.inl ?_))
                  exact hasIncomingFrom_of_mem _ _ _ r
                    (List.mem_append_left _ hrm) hstart hend
                · refine Or.inr (Or.inr (Or.inr (Or.inl ?_)))
                  exact hasIncomingFrom_of_mem _ _ _ r
                    (List.mem_append_left _ hrm) hstart hend
            · rcases hcov n hn with ⟨hlbl, r, hrm, hstart, hend⟩ |
                ⟨hlbl, r, hrm, hstart, hend⟩
              · refine Or.inr (Or.inr (Or.inr (Or.inr ⟨hlbl, ?_⟩)))
                exact hasIncomingFrom_of_mem _ _ _ r
                  (List.mem_append_right _ hrm) hstart hend
              · refine Or.inr (Or.inr (Or.inr (Or.inl ?_)))
                exact hasIncomingFrom_of_mem _ _ _ r
                  (List.mem_append_right _ hrm) hstart hend
          · intro n hn
            rcases List.mem_cons.mp hn with hn | hn
            · subst hn
              exact Or.inl rfl
            · rcases List.mem_cons.mp hn with hn | hn
              · subst hn
                exact Or.inr (Or.inl rfl)
              · cases hn

/-- Witness for C5 amended: a polyline, a line and one OCR word; the enhanced
payload has one Building, one Floor, and every node rooted as stated. -/
theorem c5_roots_amended_witness :
    ∃ base p, transform_to_graph "plan" [fixPoly "A", fixLine] = .ok base ∧
      enhance_graph_with_ocr base fixOcrData = .ok p ∧
      (labelCount p "Building" = 1 ∧ labelCount p "Floor" = 1 ∧
       ∀ n ∈ p.nodes,
         dictGet n "label" = .str "Building" ∨ dictGet n "label" = .str "Floor" ∨
         hasIncomingFrom p "Building" (dictGet n "uid") = true ∨
         hasIncomingFrom p "Floor" (dictGet n "uid") = true ∨
         (dictGet n "label" = .str "OCRText" ∧
           hasIncomingFrom p "OCRRegion" (dictGet n "uid") = true)) := by
  refine ⟨_, _, rfl, rfl, ?_⟩
  exact c5_roots_amended "plan" [fixPoly "A", fixLine] fixOcrData _ _ rfl rfl

theorem safeTag_safe (v : Value) (h : safeTag (vtag v) = true) :
    is_neo4j_safe v = true := by
  unfold is_neo4j_safe
  rw [if_pos h]

theorem force_neo4j_safe_safe (v : Value) :
    is_neo4j_safe (force_neo4j_safe v) = true := by
  unfold force_neo4j_safe
  by_cases h : is_neo4j_safe v = true
  · rw [if_pos h]; exact h
  · rw [if_neg h]; rfl

theorem secondSweep_id (props : PyDict) : secondSweep props = props := by
  unfold secondSweep
  have : ∀ p : String × Value,
      (match p.2 with
       | .dict dv => (p.1, Value.dict dv)
       | v => (p.1, v)) = p := by
    intro p
    rcases p with ⟨k, v⟩
    cases v <;> rfl
  calc props.map _ = props.map id := List.map_congr_left (fun p _ => this p)
    _ = props := List.map_id props

theorem flatPass_fold_safe :
    ∀ (l : List (String × Value)) (acc : PyDict),
    (∀ kv ∈ acc, is_neo4j_safe kv.2 = true) →
    (∀ kv ∈ l, ∀ dv, kv.2 = .dict dv → hasXYZ dv = true →
      safeTag (vtag (dictGet dv "x")) = true ∧
      safeTag (vtag (dictGet dv "y")) = true ∧
      safeTag (vtag (dictGet dv "z")) = true) →
    ∀ kv ∈ l.foldl (fun acc p => flatPassEntry acc p.1 p.2) acc,
      is_neo4j_safe kv.2 = true := by
  intro l
  induction l with
  | nil =>
    intro acc hacc _ kv hkv
    exact hacc kv hkv
  | cons p rest ih =>
    intro acc hacc hl kv hkv
    simp only [List.foldl_cons] at hkv
    refine ih (flatPassEntry acc p.1 p.2) ?_
      (fun kv2 h2 => hl kv2 (List.mem_cons_of_mem _ h2)) kv hkv
    intro kv2 hkv2
    rcases p with ⟨k, v⟩
    cases v with
    | dict dv =>
      simp only [flatPassEntry] at hkv2
      by_cases hx : hasXYZ dv = true
      · rw [if_pos hx] at hkv2
        obtain ⟨hx1, hx2, hx3⟩ :=
          hl (k, .dict dv) (List.mem_cons_self _ _) dv rfl hx
        rcases mem_dictSet _ _ _ kv2 hkv2 with h | h
        · rcases mem_dictSet _ _ _ kv2 h with h | h
          · rcases mem_dictSet _ _ _ kv2 h with h | h
            · exact hacc kv2 h
            · subst h; dsimp only; exact safeTag_safe _ hx1
          · subst h; dsimp only; exact safeTag_safe _ hx2
        · subst h; dsimp only; exact safeTag_safe _ hx3
      · rw [if_neg hx] at hkv2
        rcases mem_dictSet _ _ _ kv2 hkv2 with h | h
        · exact hacc kv2 h
        · subst h; dsimp only; apply force_neo4j_safe_safe
    | list lv =>
      cases lv with
      | nil =>
        simp only [flatPassEntry] at hkv2
        rcases mem_dictSet _ _ _ kv2 hkv2 with h | h
        · exact hacc kv2 h
        · subst h; dsimp only; apply force_neo4j_safe_safe
      | cons hv tv =>
        simp only [flatPassEntry] at hkv2
        by_cases hd : isDictV hv = true
        · rw [if_pos hd] at hkv2
          rcases mem_dictSet _ _ _ kv2 hkv2 with h | h
          · exact hacc kv2 h
          · subst h; dsimp only; rfl
        · rw [if_neg hd] at hkv2
          rcases mem_dictSet _ _ _ kv2 hkv2 with h | h
          · exact hacc kv2 h
          · subst h; dsimp only; apply force_neo4j_safe_safe
    | none =>
      simp only [flatPassEntry] at hkv2
      rcases mem_dictSet _ _ _ kv2 hkv2 with h | h
      · exact hacc kv2 h
      · subst h; dsimp only; apply force_neo4j_safe_safe
    | bool b =>
      simp only [flatPassEntry] at hkv2
      rcases mem_dictSet _ _ _ kv2 hkv2 with h | h
      · exact hacc kv2 h
      · subst h; dsimp only; apply force_neo4j_safe_safe
    | int i =>
      simp only [flatPassEntry] at hkv2
      rcases mem_dictSet _ _ _ kv2 hkv2 with h | h
      · exact hacc kv2 h
      · subst h; dsimp only; apply force_neo4j_safe_safe
    | float q =>
      simp only [flatPassEntry] at hkv2
      rcases mem_dictSet _ _ _ kv2 hkv2 with h | h
      · exact hacc kv2 h
      · subst h; dsimp only; apply force_neo4j_safe_safe
    | str s =>
      simp only [flatPassEntry] at hkv2
      rcases mem_dictSet _ _ _ kv2 hkv2 with h | h
      · exact hacc kv2 h
      · subst h; dsimp only; apply force_neo4j_safe_safe

/-- C3 amended: the projector's own output still carries coordinate records
(see the counterexample) — the property restriction is established later, by
the batch writer. For every node whose sanitized form has graph-safe
coordinate records (the shape the projector emits), the per-node preparation
of `load_to_neo4j`/`_merge_nodes_batch` (sanitize, pop `label`/`uid`,
flatten, final sweep) yields properties that are all graph-safe: coordinate
records become `k_x/k_y/k_z` scalars, lists of records become JSON strings,
and every other non-safe value is stringified. -/
theorem c3_writer_flattens (node : PyDict) (label uid : Value) (props : PyDict)
    (h : loadPrepNode node = .ok (label, uid, props))
    (hcoord : coordSafe (sanitizeDict (sanitizeDict node)) = true) :
    ∀ kv ∈ props, is_neo4j_safe kv.2 = true := by
  unfold loadPrepNode mergePrepNode at h
  dsimp only at h
  cases hlb : dictFind? (sanitizeDict (sanitizeDict node)) "label" with
  | none => rw [hlb] at h; simp at h
  | some lbl =>
    rw [hlb] at h
    dsimp only at h
    cases hu : dictFind? (sanitizeDict (sanitizeDict node)) "uid" with
    | none => rw [hu] at h; simp at h
    | some u =>
      rw [hu] at h
      simp only [pure, Except.pure, Except.ok.injEq, Prod.mk.injEq] at h
      obtain ⟨h1, h2, h3⟩ := h
      rw [secondSweep_id] at h3
      subst h3
      refine flatPass_fold_safe _ [] (by intro kv hkv; cases hkv) ?_
      intro kv hkv dv hdv hx
      have hmem : kv ∈ sanitizeDict (sanitizeDict node) :=
        mem_dictPop _ _ kv (mem_dictPop _ _ kv hkv)
      have hall := (List.all_eq_true.mp hcoord) kv hmem
      rw [hdv] at hall
      dsimp only at hall
      rw [hx] at hall
      simp only [Bool.not_true, Bool.false_or, Bool.and_eq_true] at hall
      exact ⟨hall.1.1, hall.1.2, hall.2⟩

/-- Witness for C3 amended: the `WallSegment` node the projector builds for a
`LINE` entity (which still carries `start`/`end` records, per the
counterexample) is fully flattened by the writer: all prepared properties are
graph-safe, `start`/`end` are gone, and `start_x`/`end_x` hold the scalars. -/
theorem c3_writer_flattens_witness :
    ∃ label uid props,
      loadPrepNode (wallNode (new_uid "wall" 1) fixLine) =
        .ok (label, uid, props) ∧
      (∀ kv ∈ props, is_neo4j_safe kv.2 = true) ∧
      dictGet props "start_x" = .int 0 ∧ dictGet props "end_x" = .int 10 ∧
      dictFind? props "start" = Option.none ∧
      dictFind? props "end" = Option.none := by
  refine ⟨_, _, _, rfl, ?_, rfl, rfl, rfl, rfl⟩
  exact c3_writer_flattens (wallNode (new_uid "wall" 1) fixLine) _ _ _ rfl
    (by decide)

